import Mathlib

/-!
Verification of the PUDL `analysis` module (pudl/analysis.py).

The Python functions operate on pandas DataFrames holding numeric data.
The embedding below models:
  * numeric columns as `ℚ` (exact arithmetic in place of IEEE floats;
    a non-finite float result — NaN or ±inf, which in this code arises only
    from division by zero and from undefined Pearson correlations — is
    modelled as `Option.none`);
  * a DataFrame with a fixed schema as a `List` of a structure whose fields
    are the columns the function reads or writes;
  * a DataFrame with a dynamic column set (needed where the code adds and
    drops columns by name) as a `List` of association lists `String × Val`.
Each Lean definition is translated from the correspondingly named Python
function.
-/

namespace PudlAnalysis

/-- A calendar date, as stored in a pandas datetime column. -/
structure PDate where
  year : ℤ
  month : ℕ
  day : ℕ
deriving DecidableEq, Repr

/-- Float division as pandas/numpy perform it elementwise: a zero divisor
produces a non-finite float (`0/0 = NaN`, `x/0 = ±inf`), which downstream
pandas code treats as a missing value; we model every non-finite result
as `none`. -/
def floatDiv (x y : ℚ) : Option ℚ :=
  if y = 0 then none else some (x / y)

/-! ## FERC Form 1 expense correlation pipeline
(`ferc1_expns_corr`, `consolidate_ferc1_expns`) -/

/-- The fifteen `expns_*` columns listed in `cols_to_correlate` inside
`ferc1_expns_corr`. -/
inductive ExpnsCat where
  | expns_operations
  | expns_fuel
  | expns_coolants
  | expns_steam
  | expns_steam_other
  | expns_transfer
  | expns_electric
  | expns_misc_power
  | expns_rents
  | expns_allowances
  | expns_engineering
  | expns_structures
  | expns_boiler
  | expns_plants
  | expns_misc_steam
deriving DecidableEq, Fintype, Repr

/-- A row of the `plants_steam_ferc1` selection handed to
`ferc1_expns_corr` / `consolidate_ferc1_expns`: the net generation and
capacity columns plus the fifteen expense columns. -/
structure SteamRow where
  net_generation_mwh : ℚ
  total_capacity_mw : ℚ
  expns : ExpnsCat → ℚ

/-- The "capacity factor" exactly as line 328–329 of analysis.py computes it:
`net_generation_mwh / 8760 * total_capacity_mw`.  Python's left-to-right
evaluation makes this `(net / 8760) * capacity`. -/
def capfacCode (r : SteamRow) : ℚ :=
  r.net_generation_mwh / 8760 * r.total_capacity_mw

/-- Modelled from the spec: "capacity factor = net generation ÷ (nameplate
capacity × 8760 hours/year)" (spec §4.5 with §4.4's formula). Stated for
comparison with `capfacCode`, the formula the code actually uses. -/
def spec_capacity_factor (r : SteamRow) : ℚ :=
  r.net_generation_mwh / (r.total_capacity_mw * 8760)

/-- The row filter of `ferc1_expns_corr`:
`steam_df = steam_df[steam_df['capacity_factor'] > min_capfac]`. -/
def corrFiltered (df : List SteamRow) (min_capfac : ℚ) : List SteamRow :=
  df.filter (fun r => decide (min_capfac < capfacCode r))

/-- Modelled from the spec: the same filter, but with the capacity factor
computed by the spec's formula (spec §4.5: "restrict to rows above a minimum
capacity-factor threshold"). -/
def spec_corrFiltered (df : List SteamRow) (min_capfac : ℚ) : List SteamRow :=
  df.filter (fun r => decide (min_capfac < spec_capacity_factor r))

/-- Arithmetic mean of a list (numpy's row mean inside `corrcoef`;
the empty list gives the junk value `0`, a case in which `corrcoef`
below is `none` anyway). -/
def lmean (l : List ℚ) : ℚ := l.sum / l.length

/-- Sum of squared deviations from the mean (`n·Var`). -/
def sqdev (l : List ℚ) : ℚ :=
  (l.map (fun x => (x - lmean l) ^ 2)).sum

/-- Sum of products of deviations (`n·Cov`). -/
def crossdev (xs ys : List ℚ) : ℚ :=
  ((xs.zip ys).map (fun p => (p.1 - lmean xs) * (p.2 - lmean ys))).sum

/-- `np.corrcoef(xs, ys)[0, 1]`: the Pearson correlation
`Cov(x,y) / √(Var x · Var y)`.  The normalisation by the number of
observations cancels between numerator and denominator, so it is computed
from the raw deviation sums.  Whenever either variance is zero (including
the empty and singleton cases) numpy's division yields NaN; that
undefined correlation is `none`. -/
noncomputable def corrcoef (xs ys : List ℚ) : Option ℝ :=
  if sqdev xs = 0 ∨ sqdev ys = 0 then none
  else some ((crossdev xs ys : ℚ) / Real.sqrt ((sqdev xs * sqdev ys : ℚ) : ℝ))

/-- `ferc1_expns_corr(steam_df, min_capfac)`: for each expense column,
restrict to the capacity-factor-filtered rows where that column is nonzero
(lines 353–354), and correlate the column against `net_generation_mwh`
(line 355).  Returns the dictionary of correlations as a function. -/
noncomputable def ferc1_expns_corr (df : List SteamRow) (min_capfac : ℚ)
    (c : ExpnsCat) : Option ℝ :=
  let nz := (corrFiltered df min_capfac).filter (fun r => decide (r.expns c ≠ 0))
  corrcoef (nz.map (fun r => r.net_generation_mwh)) (nz.map (fun r => r.expns c))

/-- Python's `corr >= min_corr` on a float that may be NaN: false when the
correlation is undefined. -/
def optGe (o : Option ℝ) (t : ℚ) : Prop :=
  ∃ r : ℝ, o = some r ∧ (t : ℝ) ≤ r

/-- Python's `corr < min_corr` on a float that may be NaN: false when the
correlation is undefined. -/
def optLt (o : Option ℝ) (t : ℚ) : Prop :=
  ∃ r : ℝ, o = some r ∧ r < (t : ℝ)

/-- The `nonfuel_px` bucket of `consolidate_ferc1_expns` (line 291): the
expense categories left after `expns_corr.pop('expns_fuel')` whose
correlation satisfies `>= min_corr`. -/
noncomputable def nonfuel_px (df : List SteamRow) (min_capfac min_corr : ℚ) :
    Finset ExpnsCat :=
  @Finset.filter ExpnsCat
    (fun c => c ≠ ExpnsCat.expns_fuel ∧ optGe (ferc1_expns_corr df min_capfac c) min_corr)
    (fun _ => Classical.dec _) Finset.univ

/-- The `npx` bucket of `consolidate_ferc1_expns` (line 292): the remaining
categories whose correlation satisfies `< min_corr`. -/
noncomputable def npx (df : List SteamRow) (min_capfac min_corr : ℚ) :
    Finset ExpnsCat :=
  @Finset.filter ExpnsCat
    (fun c => c ≠ ExpnsCat.expns_fuel ∧ optLt (ferc1_expns_corr df min_capfac c) min_corr)
    (fun _ => Classical.dec _) Finset.univ

/-- A row of `consolidate_ferc1_expns`'s output: all the original columns
plus the two derived totals (lines 297–300). -/
structure ConsolidatedRow where
  base : SteamRow
  expns_total_nonfuel_production : ℚ
  expns_total_nonproduction : ℚ

/-- `consolidate_ferc1_expns(steam_df, min_capfac, min_corr)`: every input
row, with `expns_total_nonfuel_production` = row-sum over the `nonfuel_px`
columns and `expns_total_nonproduction` = row-sum over the `npx` columns. -/
noncomputable def consolidate_ferc1_expns (df : List SteamRow)
    (min_capfac min_corr : ℚ) : List ConsolidatedRow :=
  df.map (fun r =>
    { base := r
      expns_total_nonfuel_production := ∑ c ∈ nonfuel_px df min_capfac min_corr, r.expns c
      expns_total_nonproduction := ∑ c ∈ npx df min_capfac min_corr, r.expns c })

/-- Concrete row exhibiting the capacity-factor formula bug: 8760 MWh of
net generation on 4 MW of capacity is a true capacity factor of 0.25, but
the code computes `8760/8760*4 = 4`. -/
def rowC2 : SteamRow :=
  { net_generation_mwh := 8760
    total_capacity_mw := 4
    expns := fun _ => 0 }

/-- Input for the C1 counterexample: a single plant-year whose (code)
capacity factor is 0, so that the correlation step sees no rows at all and
every correlation is NaN, yet the row carries a nonzero non-fuel expense. -/
def steamZero : SteamRow :=
  { net_generation_mwh := 0
    total_capacity_mw := 5
    expns := fun c => if c = ExpnsCat.expns_operations then 1 else 0 }

/-- Rows for the C1 witness: two plants passing the capacity-factor filter
whose every expense column equals net generation, so every correlation is
defined (indeed 1). -/
def steamW1 : SteamRow :=
  { net_generation_mwh := 8760
    total_capacity_mw := 1
    expns := fun _ => 8760 }

/-- Second witness row, see `steamW1`. -/
def steamW2 : SteamRow :=
  { net_generation_mwh := 17520
    total_capacity_mw := 1
    expns := fun _ => 17520 }

/-- Witness input DataFrame for C1. -/
def steamDfW : List SteamRow := [steamW1, steamW2]

/-- The first output row of `consolidate_ferc1_expns` on `steamDfW` with the
default thresholds. -/
noncomputable def consRowW : ConsolidatedRow :=
  { base := steamW1
    expns_total_nonfuel_production := ∑ c ∈ nonfuel_px steamDfW (3/5) (1/2), steamW1.expns c
    expns_total_nonproduction := ∑ c ∈ npx steamDfW (3/5) (1/2), steamW1.expns c }

/-- Input for the C6 witness: one row passing the capacity-factor filter
with `expns_coolants` identically zero. -/
def steamC6 : SteamRow :=
  { net_generation_mwh := 8760
    total_capacity_mw := 1
    expns := fun c => if c = ExpnsCat.expns_operations then 5 else 0 }

/-! ## Fuel heat-content pivot machinery
(`plant_fuel_proportions_*`, `primary_fuel_*`)

All three pipelines build a pivot table: rows indexed by a group key `κ`
(plant and year), one column per fuel name, cell = heat content.  The
generic records are triples `(key, fuel, mmbtu)`. -/

/-- The fuel columns of the pivot table: `pandas.pivot_table` produces one
column per distinct value of the `columns` field, sorted lexicographically. -/
def pivotFuels {κ : Type} (recs : List (κ × String × ℚ)) : List String :=
  ((recs.map (fun t => t.2.1)).dedup).insertionSort (fun a b => a ≤ b)

/-- The raw values landing in the pivot cell for group `k` and fuel `f`. -/
def cellVals {κ : Type} [DecidableEq κ] (recs : List (κ × String × ℚ))
    (k : κ) (f : String) : List ℚ :=
  (recs.filter (fun t => decide (t.1 = k ∧ t.2.1 = f))).map (fun t => t.2.2)

/-- One pivot cell: `pivot_table`'s default aggregation is the *mean* of the
matching values; a (key, fuel) combination with no record is NaN (later
zero-filled). -/
def pivotCell {κ : Type} [DecidableEq κ] (recs : List (κ × String × ℚ))
    (k : κ) (f : String) : Option ℚ :=
  let vs := cellVals recs k f
  if vs.isEmpty then none else some (vs.sum / vs.length)

/-- The `total` column: `heat_pivot.sum(axis=1)`, a skipna row sum over the
fuel columns (absent cells contribute nothing, exactly as after the
subsequent `fillna(0)`). -/
def rowTotal {κ : Type} [DecidableEq κ] (recs : List (κ × String × ℚ))
    (k : κ) : ℚ :=
  ((pivotFuels recs).map (fun f => (pivotCell recs k f).getD 0)).sum

/-- The fuel-share cell after `fillna(0)` and `divide(total, axis='index')`:
the zero-filled heat content divided by the row total.  A zero total makes
the float division non-finite (`0/0 = NaN`), modelled as `none`. -/
def share {κ : Type} [DecidableEq κ] (recs : List (κ × String × ℚ))
    (k : κ) (f : String) : Option ℚ :=
  if rowTotal recs k = 0 then none
  else some ((pivotCell recs k f).getD 0 / rowTotal recs k)

/-- The group keys of the pivot table (its row index): the distinct keys of
the records. -/
def groupKeys {κ : Type} [DecidableEq κ] (recs : List (κ × String × ℚ)) :
    List κ :=
  (recs.map (fun t => t.1)).dedup

/-- The row-wise maximum fuel share of a group, over the pivot's fuel
columns (shares read as their zero-filled numeric values). -/
def maxShareOf {κ : Type} [DecidableEq κ] (recs : List (κ × String × ℚ))
    (k : κ) : ℚ :=
  ((pivotFuels recs).map (fun f => (share recs k f).getD 0)).foldr max 0

/-- `df.where(df >= fuel_thresh)` on one share cell: values below the
threshold (and NaN cells) become NaN. -/
def maskGE (t : ℚ) (o : Option ℚ) : Option ℚ :=
  match o with
  | some v => if t ≤ v then some v else none
  | none => none

/-- `df.idxmax(axis=1)` over the given columns: the first column (in column
order) attaining the maximum among the non-NaN cells; NaN (here `none`)
when every cell is NaN. -/
def idxmax (cols : List String) (vals : String → Option ℚ) : Option String :=
  let cands := cols.filterMap (fun c => (vals c).map (fun v => (c, v)))
  match cands with
  | [] => none
  | c0 :: rest => some (rest.foldl (fun best p => if p.2 > best.2 then p else best) c0).1

/-- A row of the PUDL `fuel_ferc1` selection read by
`plant_fuel_proportions_ferc1`. -/
structure FuelF1Row where
  report_year : ℤ
  respondent_id : ℤ
  plant_name : String
  fuel : String
  fuel_qty_burned : ℚ
  fuel_avg_mmbtu_per_unit : ℚ
deriving DecidableEq, Repr

/-- The pivot records of `plant_fuel_proportions_ferc1`: key =
(report_year, respondent_id, plant_name), value = `total_mmbtu =
fuel_qty_burned * fuel_avg_mmbtu_per_unit` (line 760–761).  Note that this
pipeline pivots the raw rows directly (duplicated (key, fuel) rows get
averaged by `pivot_table`). -/
def ferc1Recs (df : List FuelF1Row) : List ((ℤ × ℤ × String) × String × ℚ) :=
  df.map (fun r => ((r.report_year, r.respondent_id, r.plant_name), r.fuel,
    r.fuel_qty_burned * r.fuel_avg_mmbtu_per_unit))

/-- `plant_fuel_proportions_ferc1(fuel_df)`: one output row per group key,
carrying the fuel-share columns and the `total_mmbtu` column (the `total`
column merged back and renamed, lines 783–785). -/
def plant_fuel_proportions_ferc1 (df : List FuelF1Row) :
    List ((ℤ × ℤ × String) × (String → Option ℚ) × ℚ) :=
  (groupKeys (ferc1Recs df)).map
    (fun k => (k, fun f => share (ferc1Recs df) k f, rowTotal (ferc1Recs df) k))

/-- `primary_fuel_ferc1(fuel_df, fuel_thresh)`: takes the proportions table,
drops `total_mmbtu`, masks shares below the threshold to NaN
(`where(plants_by_heat >= fuel_thresh)`), and `idxmax(axis=1)` row-wise
(lines 746–753). -/
def primary_fuel_ferc1 (df : List FuelF1Row) (fuel_thresh : ℚ) :
    List ((ℤ × ℤ × String) × Option String) :=
  (plant_fuel_proportions_ferc1 df).map
    (fun g => (g.1, idxmax (pivotFuels (ferc1Recs df))
      (fun f => maskGE fuel_thresh (g.2.1 f))))

/-- A row of the EIA 923 fuel receipts selection read by
`plant_fuel_proportions_frc_eia923`. -/
structure FrcRow where
  report_date : PDate
  plant_id_eia : ℤ
  plant_id_pudl : ℤ
  fuel_group : String
  fuel_quantity : ℚ
  average_heat_content : ℚ
deriving DecidableEq, Repr

/-- The grouped records of `plant_fuel_proportions_frc_eia923`: the
`groupby([plant_id_eia, Grouper(freq='A'), fuel_group]).agg(np.sum)` step
(lines 803–808) producing, per (plant, year, fuel), the summed
`total_mmbtu = fuel_quantity * average_heat_content`.  (That groupby also
sums `plant_id_pudl`, but the pivot reads only `total_mmbtu`.)  The result
feeds the pivot, whose mean aggregation over these now-unique keys is the
identity. -/
def frcGrouped (df : List FrcRow) : List ((ℤ × ℤ) × String × ℚ) :=
  ((df.map (fun r => ((r.plant_id_eia, r.report_date.year), r.fuel_group))).dedup).map
    (fun kf => (kf.1, kf.2,
      ((df.filter (fun r => decide ((r.plant_id_eia, r.report_date.year) = kf.1 ∧
        r.fuel_group = kf.2))).map
        (fun r => r.fuel_quantity * r.average_heat_content)).sum))

/-- `plant_fuel_proportions_frc_eia923(frc_df)`: one output row per
(plant_id_eia, year), with the fuel-share columns (the `total` column is
dropped and, unlike the FERC variant, not merged back). -/
def plant_fuel_proportions_frc_eia923 (df : List FrcRow) :
    List ((ℤ × ℤ) × (String → Option ℚ)) :=
  (groupKeys (frcGrouped df)).map
    (fun k => (k, fun f => share (frcGrouped df) k f))

/-- `primary_fuel_frc_eia923(frc_df, fuel_thresh)` (lines 841–856): same
mask-and-idxmax step as the FERC variant, applied to the receipts shares. -/
def primary_fuel_frc_eia923 (df : List FrcRow) (fuel_thresh : ℚ) :
    List ((ℤ × ℤ) × Option String) :=
  (plant_fuel_proportions_frc_eia923 df).map
    (fun g => (g.1, idxmax (pivotFuels (frcGrouped df))
      (fun f => maskGE fuel_thresh (g.2 f))))

/-- A row of the EIA 923 generation-fuel selection read by
`plant_fuel_proportions_gf_eia923`. -/
structure GfRow where
  report_date : PDate
  plant_id : ℤ
  fuel_type_pudl : String
  fuel_consumed_total_mmbtu : ℚ
deriving DecidableEq, Repr

/-- The grouped records of `plant_fuel_proportions_gf_eia923`: the
`groupby([plant_id, Grouper(freq='A'), fuel_type_pudl]).agg(np.sum)` step
(lines 873–878), keyed by (plant_id, year). -/
def gfGrouped (df : List GfRow) : List ((ℤ × ℤ) × String × ℚ) :=
  ((df.map (fun r => ((r.plant_id, r.report_date.year), r.fuel_type_pudl))).dedup).map
    (fun kf => (kf.1, kf.2,
      ((df.filter (fun r => decide ((r.plant_id, r.report_date.year) = kf.1 ∧
        r.fuel_type_pudl = kf.2))).map
        (fun r => r.fuel_consumed_total_mmbtu)).sum))

/-- `plant_fuel_proportions_gf_eia923(gf_df)`: fuel-share rows keyed by
(plant_id, year). -/
def plant_fuel_proportions_gf_eia923 (df : List GfRow) :
    List ((ℤ × ℤ) × (String → Option ℚ)) :=
  (groupKeys (gfGrouped df)).map
    (fun k => (k, fun f => share (gfGrouped df) k f))

/-- The column labels of the DataFrame returned by
`plant_fuel_proportions_gf_eia923`: the pivot's index levels `year` and
`plant_id` (restored as columns by `reset_index`, line 905) followed by the
fuel columns. -/
def gf_prop_cols (df : List GfRow) : List String :=
  "year" :: "plant_id" :: pivotFuels (gfGrouped df)

/-- `primary_fuel_gf_eia923(gf_df, id_col='plant_id_eia', fuel_thresh)`
(lines 911–926).  Line 922 runs
`gf_by_heat.set_index(['plant_id_eia', 'report_year'])`; pandas `set_index`
raises `KeyError` when a named column is absent, and the proportions table's
columns are `year`, `plant_id` and the fuels.  The intended mask-and-idxmax
computation follows in the success branch. -/
def primary_fuel_gf_eia923 (df : List GfRow) (fuel_thresh : ℚ) :
    Except String (List ((ℤ × ℤ) × Option String)) :=
  if "plant_id_eia" ∈ gf_prop_cols df ∧ "report_year" ∈ gf_prop_cols df then
    .ok ((plant_fuel_proportions_gf_eia923 df).map
      (fun g => (g.1, idxmax (pivotFuels (gfGrouped df))
        (fun f => maskGE fuel_thresh (g.2 f)))))
  else
    .error "KeyError: plant_id_eia"

/-- C4 counterexample input: a single FERC fuel row whose burned quantity is
zero, so the plant-year's total heat content is zero. -/
def fuelDfZero : List FuelF1Row :=
  [{ report_year := 2015, respondent_id := 1, plant_name := "X",
     fuel := "gas", fuel_qty_burned := 0, fuel_avg_mmbtu_per_unit := 5 }]

/-- C4/C3 witness input (FERC): plant 42 in 2015 burned 300 mmbtu of gas and
700 mmbtu of coal (spec §8's worked example). -/
def fuelDfW : List FuelF1Row :=
  [{ report_year := 2015, respondent_id := 42, plant_name := "P",
     fuel := "gas", fuel_qty_burned := 30, fuel_avg_mmbtu_per_unit := 10 },
   { report_year := 2015, respondent_id := 42, plant_name := "P",
     fuel := "coal", fuel_qty_burned := 70, fuel_avg_mmbtu_per_unit := 10 }]

/-- C4/C3 witness input (EIA 923 fuel receipts): the same 300/700 gas/coal
split for plant 5 in 2015. -/
def frcDfW : List FrcRow :=
  [{ report_date := { year := 2015, month := 3, day := 1 }, plant_id_eia := 5,
     plant_id_pudl := 1, fuel_group := "gas", fuel_quantity := 30,
     average_heat_content := 10 },
   { report_date := { year := 2015, month := 6, day := 1 }, plant_id_eia := 5,
     plant_id_pudl := 1, fuel_group := "coal", fuel_quantity := 70,
     average_heat_content := 10 }]

/-- C3 counterexample input: one well-formed generation-fuel row. -/
def gfDfC3 : List GfRow :=
  [{ report_date := { year := 2015, month := 1, day := 1 }, plant_id := 1,
     fuel_type_pudl := "gas", fuel_consumed_total_mmbtu := 100 }]

/-- The (year, respondent, plant) group key of the FERC witness data. -/
def fuelKW : ℤ × ℤ × String := (2015, 42, "P")

/-- The primary-fuel cell `primary_fuel_ferc1` computes for the witness
key at threshold 1/2. -/
def primW : Option String :=
  idxmax (pivotFuels (ferc1Recs fuelDfW))
    (fun f => maskGE (1/2) (share (ferc1Recs fuelDfW) fuelKW f))

/-- The (plant, year) group key of the receipts witness data. -/
def frcKW : ℤ × ℤ := (5, 2015)

/-- The primary-fuel cell `primary_fuel_frc_eia923` computes for the
witness key at threshold 1/2. -/
def frcPrimW : Option String :=
  idxmax (pivotFuels (frcGrouped frcDfW))
    (fun f => maskGE (1/2) (share (frcGrouped frcDfW) frcKW f))

/-! ## `capacity_factor` (EIA generators) -/

/-- A row of the summed generation table `g9_summed`. -/
structure G9Row where
  plant_id_eia : ℤ
  plant_id_pudl : ℤ
  generator_id : String
  report_year : ℤ
  net_generation_mwh : ℚ
deriving DecidableEq, Repr

/-- A row of the generators table `g8`. -/
structure G8Row where
  plant_id_eia : ℤ
  plant_id_pudl : ℤ
  generator_id : String
  report_year : ℤ
  nameplate_capacity_mw : ℚ
deriving DecidableEq, Repr

/-- The merge at line 209–212: inner join of `g9_summed` and `g8` on
`['plant_id_eia', 'plant_id_pudl', 'generator_id', 'report_year']`, one
output row per matching pair, in left-major order.  (Because every shared
column is a join key, pandas creates no `_x`/`_y` suffix columns and the
suffix clean-up at lines 223–232 is a no-op.) -/
def cfMerged (g9 : List G9Row) (g8 : List G8Row) : List (G9Row × G8Row) :=
  g9.flatMap (fun a => (g8.filter (fun b =>
    decide (a.plant_id_eia = b.plant_id_eia ∧ a.plant_id_pudl = b.plant_id_pudl ∧
      a.generator_id = b.generator_id ∧ a.report_year = b.report_year))).map
    (fun b => (a, b)))

/-- The raw capacity-factor value of one merged row (lines 213–215):
`net_generation_mwh / (nameplate_capacity_mw * 8760)`, non-finite (zero
capacity) modelled as `none`. -/
def rawCF (p : G9Row × G8Row) : Option ℚ :=
  floatDiv p.1.net_generation_mwh (p.2.nameplate_capacity_mw * 8760)

/-- The outlier replacement at lines 217–221: values `< 0` and values
`>= 1.5` become NaN (NaN itself fails both comparisons and stays NaN). -/
def cleanCF (o : Option ℚ) : Option ℚ :=
  match o with
  | none => none
  | some v => if v < 0 then none else if (3 : ℚ)/2 ≤ v then none else some v

/-- `capacity_factor(g9_summed, g8)`: the merged rows, each with its cleaned
`capacity_factor` column. -/
def capacity_factor (g9 : List G9Row) (g8 : List G8Row) :
    List ((G9Row × G8Row) × Option ℚ) :=
  (cfMerged g9 g8).map (fun p => (p, cleanCF (rawCF p)))

/-- C5 witness inputs: one generator whose raw capacity factor is
`20000/8760 ≈ 2.28 ≥ 1.5`. -/
def g9W : List G9Row :=
  [{ plant_id_eia := 1, plant_id_pudl := 1, generator_id := "a",
     report_year := 2015, net_generation_mwh := 20000 }]

/-- C5 witness capacity side, see `g9W`. -/
def g8W : List G8Row :=
  [{ plant_id_eia := 1, plant_id_pudl := 1, generator_id := "a",
     report_year := 2015, nameplate_capacity_mw := 1 }]

/-- The single merged row of the C5 witness. -/
def cfPairW : G9Row × G8Row :=
  ({ plant_id_eia := 1, plant_id_pudl := 1, generator_id := "a",
     report_year := 2015, net_generation_mwh := 20000 },
   { plant_id_eia := 1, plant_id_pudl := 1, generator_id := "a",
     report_year := 2015, nameplate_capacity_mw := 1 })

/-! ## `yearly_sum_eia` -/

/-- A row of the generation data handed to `yearly_sum_eia`.
`report_year` is `Option` because the input may arrive without that column;
the function writes it. -/
structure GenRow where
  plant_id_eia : ℤ
  generator_id : String
  report_date : PDate
  report_year : Option ℤ
  net_generation_mwh : ℚ
deriving DecidableEq, Repr

/-- The columns `yearly_sum_eia` can group by (its `columns` argument;
the source default is `['plant_id_eia', 'generator_id']`). -/
inductive GCol where
  | plant_id_eia
  | generator_id
  | report_year
deriving DecidableEq, Repr

/-- A grouping-column value. -/
def colVal (r : GenRow) : GCol → ℤ ⊕ String
  | GCol.plant_id_eia => Sum.inl r.plant_id_eia
  | GCol.generator_id => Sum.inr r.generator_id
  | GCol.report_year => Sum.inl (r.report_year.getD 0)

/-- `yearly_sum_eia(df, sum_by, columns)` (lines 200–202): writes
`report_year = to_datetime(report_date).dt.year` into the input frame
(in place), then groups by `columns` — and only by `columns` — and sums
`sum_by` within each group.  Returns the post-call state of `df` together
with the grouped sums (one row per distinct key, keyed by the grouping
values; pandas sorts group keys, first-appearance order here — the row set
is the same). -/
def yearly_sum_eia (df : List GenRow) (sum_by : GenRow → ℚ)
    (columns : List GCol) : List GenRow × List (List (ℤ ⊕ String) × ℚ) :=
  let df2 := df.map (fun r => { r with report_year := some r.report_date.year })
  let keyOf := fun r => columns.map (colVal r)
  ((df2),
    ((df2.map keyOf).dedup).map (fun k =>
      (k, ((df2.filter (fun r => decide (keyOf r = k))).map sum_by).sum)))

/-- C8 failing input: identical plant and generator, two different report
years, net generation 100 and 150. -/
def genDf8 : List GenRow :=
  [{ plant_id_eia := 1, generator_id := "a",
     report_date := { year := 2015, month := 1, day := 1 },
     report_year := none, net_generation_mwh := 100 },
   { plant_id_eia := 1, generator_id := "a",
     report_date := { year := 2016, month := 1, day := 1 },
     report_year := none, net_generation_mwh := 150 }]

/-! ## `fercplants` -/

/-- The four FERC Form 1 plant tables `fercplants` knows. -/
inductive FTbl where
  | f1_steam
  | f1_gnrt_plant
  | f1_hydro
  | f1_pumped_storage
deriving DecidableEq, Repr

/-- A row of one FERC plant table, with its per-table capacity column
(`tot_capacity` / `capacity_rating`) uniformly called `capacity`. -/
structure PlantRaw where
  respondent_id : ℤ
  plant_name : String
  capacity : ℚ
  report_year : ℤ
deriving DecidableEq, Repr

/-- Python's `str.title()`: the first alphabetic character of every word is
upper-cased, subsequent alphabetic characters lower-cased. -/
def pyTitleAux : Bool → List Char → List Char
  | _, [] => []
  | prev, c :: cs =>
    (if c.isAlpha then (if prev then c.toLower else c.toUpper) else c) ::
      pyTitleAux c.isAlpha cs

/-- Python's `str.strip()`: drop leading and trailing whitespace. -/
def pyStrip (s : String) : String :=
  String.mk (((s.data.dropWhile Char.isWhitespace).reverse.dropWhile
    Char.isWhitespace).reverse)

/-- `str.strip().str.title()` — the name normalisation of lines 1022–1024. -/
def stripTitle (s : String) : String :=
  String.mk (pyTitleAux false (pyStrip s).data)

/-- An output row of `fercplants`. -/
structure FPlant where
  respondent_id : ℤ
  respondent_name : String
  plant_name : String
  plant_table : FTbl
deriving DecidableEq, Repr

/-- The gather loop of `fercplants` (lines 1007–1031): for each requested
table, the `SELECT DISTINCT` of (respondent_id, plant_name, respondent_name)
joined on respondent_id, restricted to nonempty plant names, capacity at or
above `min_capacity` and report years in `years`; names normalised and the
source table tagged, all appended in table order. -/
def fercGather (plant_tables : List FTbl) (tblRows : FTbl → List PlantRaw)
    (respondents : List (ℤ × String)) (years : List ℤ) (min_capacity : ℚ) :
    List FPlant :=
  plant_tables.flatMap (fun tbl =>
    let sel := ((tblRows tbl).filter (fun p => decide (p.plant_name ≠ "" ∧
        min_capacity ≤ p.capacity ∧ p.report_year ∈ years))).flatMap
      (fun p => (respondents.filter (fun q => decide (q.1 = p.respondent_id))).map
        (fun q => (p.respondent_id, p.plant_name, q.2)))
    (sel.dedup).map (fun t =>
      { respondent_id := t.1, respondent_name := stripTitle t.2.2,
        plant_name := stripTitle t.2.1, plant_table := tbl }))

/-- `fercplants(plant_tables, years, new, min_capacity)` against a target
database whose existing `plants_ferc` pairs are `oldPairs` (the
`SELECT DISTINCT respondent_id, plant_name` of lines 1043–1046).  With
`new=True`, lines 1035–1055 index the gathered frame by
(respondent_id, plant_name), take the index difference with the existing
pairs, and keep the rows at the surviving index values.  (`Index.difference`
also sorts; row order is immaterial here and first-appearance order is
kept.)  With `new=False` the gathered frame is returned whole. -/
def fercplants (plant_tables : List FTbl) (tblRows : FTbl → List PlantRaw)
    (respondents : List (ℤ × String)) (years : List ℤ) (new : Bool)
    (min_capacity : ℚ) (oldPairs : List (ℤ × String)) : List FPlant :=
  let all := fercGather plant_tables tblRows respondents years min_capacity
  if new then
    let newIndex := ((all.map (fun r => (r.respondent_id, r.plant_name))).dedup).filter
      (fun p => decide (p ∉ oldPairs))
    newIndex.flatMap (fun p =>
      all.filter (fun r => decide ((r.respondent_id, r.plant_name) = p)))
  else all

/-- C9 witness: one steam plant whose normalised name is absent from the
target database. -/
def fercRowsW : FTbl → List PlantRaw
  | FTbl.f1_steam =>
    [{ respondent_id := 1
       plant_name := " big PLANT "
       capacity := 10
       report_year := 2015 }]
  | _ => []

/-- C9 witness respondent table. -/
def respondentsW : List (ℤ × String) := [(1, "util co")]

/-- C9 witness: the pairs already in the target database. -/
def oldPairsW : List (ℤ × String) := [(2, "Other")]

/-- The single output row of the C9 witness. -/
def fplantW : FPlant :=
  { respondent_id := 1, respondent_name := "Util Co",
    plant_name := "Big Plant", plant_table := FTbl.f1_steam }

/-! ## `merge_on_date_year`

This function adds and drops columns by name, so its frames are modelled
with an explicit column structure: a row is an association list from column
name to value, a frame a list of rows sharing a schema. -/

/-- A cell value: numbers, strings, or dates. -/
inductive Val where
  | num (q : ℚ)
  | str (s : String)
  | date (d : PDate)
deriving DecidableEq, Repr

/-- A row: an ordered association list of (column name, value). -/
abbrev Row := List (String × Val)

/-- The column labels of a row, in order. -/
def rowCols (r : Row) : List String := r.map (fun p => p.1)

/-- `row[c]`: the value under the first occurrence of column `c`. -/
def getCol (r : Row) (c : String) : Option Val :=
  (r.find? (fun p => decide (p.1 = c))).map (fun p => p.2)

/-- `df[c] = v` on one row: overwrite an existing column in place, else
append the new column at the end (pandas column assignment). -/
def setCol (r : Row) (c : String) (v : Val) : Row :=
  if r.any (fun p => decide (p.1 = c)) then
    r.map (fun p => if p.1 = c then (c, v) else p)
  else r ++ [(c, v)]

/-- `df.drop([c], axis=1)` on one row. -/
def dropCol (r : Row) (c : String) : Row :=
  r.filter (fun p => decide (p.1 ≠ c))

/-- `df[cs]` on one row: the columns named in `cs`, in that order (a name
absent from the row is skipped; pandas would raise, and the preconditions
below rule it out). -/
def projectRow (r : Row) (cs : List String) : Row :=
  cs.filterMap (fun c => (getCol r c).map (fun v => (c, v)))

/-- The schema of a frame: the column labels of its first row (every row
shares them under the uniform-schema precondition). -/
def colsOf (df : List Row) : List String :=
  match df with
  | [] => []
  | r :: _ => rowCols r

/-- `pd.to_datetime(row[c]).dt.year` as a rational (non-date junk maps to
`0`; the preconditions require a date there). -/
def yearTempVal (r : Row) (c : String) : ℚ :=
  match getCol r c with
  | some (Val.date d) => (d.year : ℚ)
  | _ => 0

/-- The distinct years appearing in a frame's `year_col` column. -/
def uniqYears (df_year : List Row) (year_col : String) : List ℤ :=
  (df_year.filterMap (fun r =>
    match getCol r year_col with
    | some (Val.date d) => some d.year
    | _ => none)).dedup

/-- Successive elements increase by exactly one year. -/
def consecYearsB : List ℤ → Bool
  | [] => true
  | [_] => true
  | a :: b :: t => (b == a + 1) && consecYearsB (b :: t)

/-- The assertion at lines 57–58:
`pd.infer_freq(DatetimeIndex(df_year[year_col].unique()).sort_values()) ==
'AS-JAN'` succeeds exactly when the column holds January-1st dates, at
least three distinct ones (`infer_freq` needs three), in consecutive
years. -/
def asJanB (df_year : List Row) (year_col : String) : Bool :=
  df_year.all (fun r =>
    match getCol r year_col with
    | some (Val.date d) => decide (d.month = 1 ∧ d.day = 1)
    | _ => false) &&
  decide (3 ≤ (uniqYears df_year year_col).length) &&
  consecYearsB ((uniqYears df_year year_col).insertionSort (fun a b => a ≤ b))

/-- Drop the merge-key columns from the right-hand row (pandas emits each
key column once, from the left side). -/
def dropKeys (r : Row) (keys : List String) : Row :=
  r.filter (fun p => decide (p.1 ∉ keys))

/-- `merge_on_date_year(df_date, df_year, on, date_col, year_col)` with the
default `how='inner'` (lines 55–77), as a state-passing translation of the
in-place column writes:

* line 62 writes `year_temp` into the caller's `df_year` (first component
  of the result = the caller's `df_year` after the call);
* line 65 rebinds `df_year` to a copy without `year_col`;
* line 66 writes `year_temp` into the caller's `df_date` (second component
  = the caller's `df_date` after the call);
* lines 68–75: inner merge of `df_date` with
  `df_year[unshared_cols + on + ['year_temp']]` on `on + ['year_temp']`
  (one output row per key-matching pair, left-major), then drop
  `year_temp`.  The third component is the returned merged frame. -/
def merge_on_date_year (df_date df_year : List Row) (onCols : List String)
    (date_col year_col : String) : List Row × List Row × List Row :=
  let df_year_mut := df_year.map (fun r =>
    setCol r "year_temp" (Val.num (yearTempVal r year_col)))
  let df_year2 := df_year_mut.map (fun r => dropCol r year_col)
  let df_date_mut := df_date.map (fun r =>
    setCol r "year_temp" (Val.num (yearTempVal r date_col)))
  let full_on := onCols ++ ["year_temp"]
  let unshared := (colsOf df_year2).filter (fun c => decide (c ∉ colsOf df_date_mut))
  let cols_to_use := unshared ++ full_on
  let right := df_year2.map (fun r => projectRow r cols_to_use)
  let merged := df_date_mut.flatMap (fun d =>
    (right.filter (fun y => full_on.all (fun k => decide (getCol d k = getCol y k)))).map
      (fun y => d ++ dropKeys y full_on))
  (df_date_mut, df_year_mut, merged.map (fun r => dropCol r "year_temp"))

/-- Stage of `merge_on_date_year`: the caller's `df_date` after the
in-place `year_temp` write (line 66). -/
def mdyDateMut (date_col : String) (df_date : List Row) : List Row :=
  df_date.map (fun r => setCol r "year_temp" (Val.num (yearTempVal r date_col)))

/-- Stage of `merge_on_date_year`: the caller's `df_year` after the
in-place `year_temp` write (line 62). -/
def mdyYearMut (year_col : String) (df_year : List Row) : List Row :=
  df_year.map (fun r => setCol r "year_temp" (Val.num (yearTempVal r year_col)))

/-- Stage of `merge_on_date_year`: the rebound `df_year` with its annual
date column dropped (line 65). -/
def mdyYear2 (year_col : String) (df_year : List Row) : List Row :=
  (mdyYearMut year_col df_year).map (fun r => dropCol r year_col)

/-- Stage of `merge_on_date_year`: `unshared_cols` (lines 69–70). -/
def mdyUnshared (df_date df_year : List Row) (date_col year_col : String) :
    List String :=
  (colsOf (mdyYear2 year_col df_year)).filter
    (fun c => decide (c ∉ colsOf (mdyDateMut date_col df_date)))

/-- Stage of `merge_on_date_year`: `cols_to_use` (line 71). -/
def mdyColsToUse (df_date df_year : List Row) (onCols : List String)
    (date_col year_col : String) : List String :=
  mdyUnshared df_date df_year date_col year_col ++ (onCols ++ ["year_temp"])

/-- Stage of `merge_on_date_year`: the inner merge of line 74, before the
`year_temp` drop. -/
def mdyMergedPre (df_date df_year : List Row) (onCols : List String)
    (date_col year_col : String) : List Row :=
  (mdyDateMut date_col df_date).flatMap (fun d =>
    (((mdyYear2 year_col df_year).map (fun r =>
        projectRow r (mdyColsToUse df_date df_year onCols date_col year_col))).filter
      (fun y => (onCols ++ ["year_temp"]).all
        (fun k => decide (getCol d k = getCol y k)))).map
      (fun y => d ++ dropKeys y (onCols ++ ["year_temp"])))

/-- The matching condition of the merge, phrased on the original input
rows: equal derived years and equal values in the extra `on` columns. -/
def specMatchB (d y : Row) (onCols : List String) (date_col year_col : String) : Bool :=
  onCols.all (fun k => decide (getCol d k = getCol y k)) &&
  decide (yearTempVal d date_col = yearTempVal y year_col)

/-- C7/C10 witness: the finer-grained frame, one dated row. -/
def dfDateW : List Row :=
  [[("report_date", Val.date { year := 2015, month := 6, day := 1 }),
    ("x", Val.num 7)]]

/-- C7/C10 witness: the annual frame, three consecutive January-1st years. -/
def dfYearW : List Row :=
  [[("report_date", Val.date { year := 2014, month := 1, day := 1 }),
    ("cap", Val.num 10)],
   [("report_date", Val.date { year := 2015, month := 1, day := 1 }),
    ("cap", Val.num 11)],
   [("report_date", Val.date { year := 2016, month := 1, day := 1 }),
    ("cap", Val.num 12)]]

/-! ## Theorems -/

/-- Claim C2 (code_bug evaluation).  The claim and the spec define the
capacity factor used by `ferc1_expns_corr`'s row filter as net generation ÷
(capacity × 8760); the code computes `net_generation_mwh / 8760 *
total_capacity_mw`, i.e. `(net/8760)·capacity`.  On a plant with 8760 MWh
over 4 MW — a true capacity factor of 0.25, which the claimed filter
excludes at the 0.6 threshold — the code's filter keeps the row, because it
computes the value 4. -/
theorem claim_C2_code_eval :
    corrFiltered [rowC2] (3/5) = [rowC2] ∧
    spec_corrFiltered [rowC2] (3/5) = [] ∧
    capfacCode rowC2 = 4 ∧
    spec_capacity_factor rowC2 = 1/4 := by
  refine ⟨?_, ?_, ?_, ?_⟩
  · have h : (3 : ℚ)/5 < capfacCode rowC2 := by norm_num [capfacCode, rowC2]
    simp [corrFiltered, h]
  · have h : ¬ ((3 : ℚ)/5 < spec_capacity_factor rowC2) := by
      norm_num [spec_capacity_factor, rowC2]
    simp [spec_corrFiltered, h]
  · norm_num [capfacCode, rowC2]
  · norm_num [spec_capacity_factor, rowC2]

/-- Claim C8 (code_bug evaluation).  `yearly_sum_eia` computes
`report_year` but groups only by its `columns` argument, whose default is
`['plant_id_eia', 'generator_id']` — the year is not part of the key.  Two
rows for the same plant and generator in different report years therefore
collapse into a single output row summing to 250, where the claim requires
two distinct rows. -/
theorem claim_C8_code_eval :
    (yearly_sum_eia genDf8 (fun r => r.net_generation_mwh)
      [GCol.plant_id_eia, GCol.generator_id]).2
      = [([Sum.inl 1, Sum.inr "a"], 250)] := by
  simp [yearly_sum_eia, genDf8, colVal]
  norm_num

/-- Claim C9: every row of `fercplants(new=True)` carries a
(respondent_id, plant_name) pair absent from the target database's
existing `plants_ferc` pairs — the output index is the set difference of
the gathered pairs and the existing ones. -/
theorem claim_C9_set_difference (plant_tables : List FTbl)
    (tblRows : FTbl → List PlantRaw) (respondents : List (ℤ × String))
    (years : List ℤ) (min_capacity : ℚ) (oldPairs : List (ℤ × String)) :
    ∀ r ∈ fercplants plant_tables tblRows respondents years true
      min_capacity oldPairs,
      (r.respondent_id, r.plant_name) ∉ oldPairs := by
  intro r hr
  rw [fercplants] at hr
  simp only [if_true] at hr
  rw [List.mem_flatMap] at hr
  obtain ⟨p, hp, hrf⟩ := hr
  rw [List.mem_filter] at hp
  rw [List.mem_filter] at hrf
  have heq : (r.respondent_id, r.plant_name) = p := of_decide_eq_true hrf.2
  rw [heq]
  exact of_decide_eq_true hp.2

/-- Witness for C9: a concrete query in which one plant survives the set
difference, checked against the theorem. -/
theorem claim_C9_witness :
    fplantW ∈ fercplants [FTbl.f1_steam] fercRowsW respondentsW [2015] true
      5 oldPairsW ∧
    (fplantW.respondent_id, fplantW.plant_name) ∉ oldPairsW := by
  have hname : stripTitle " big PLANT " = "Big Plant" := by decide
  have hresp : stripTitle "util co" = "Util Co" := by decide
  have hcap : (5 : ℚ) ≤ 10 := by norm_num
  have hgather : fercGather [FTbl.f1_steam] fercRowsW respondentsW [2015] 5
      = [fplantW] := by
    simp [fercGather, fercRowsW, respondentsW, hcap, hname, hresp, fplantW]
  have hmem : fplantW ∈ fercplants [FTbl.f1_steam] fercRowsW respondentsW
      [2015] true 5 oldPairsW := by
    rw [fercplants]
    simp only [if_true, hgather]
    simp [oldPairsW, fplantW]
  exact ⟨hmem, claim_C9_set_difference [FTbl.f1_steam] fercRowsW respondentsW
    [2015] 5 oldPairsW fplantW hmem⟩

/-- Claim C5: `capacity_factor` keeps every merged row (output length =
merge length), and any row whose raw capacity factor is non-finite or lies
outside [0, 1.5) gets `none` — a missing-value marker, never the raw
out-of-range number. -/
theorem claim_C5_outlier_nan (g9 : List G9Row) (g8 : List G8Row) :
    (capacity_factor g9 g8).length = (cfMerged g9 g8).length ∧
    ∀ row ∈ capacity_factor g9 g8,
      (rawCF row.1 = none ∨
        ∃ v, rawCF row.1 = some v ∧ (v < 0 ∨ (3 : ℚ)/2 ≤ v)) →
      row.2 = none := by
  constructor
  · rw [capacity_factor, List.length_map]
  · intro row hrow hcond
    rw [capacity_factor, List.mem_map] at hrow
    obtain ⟨p, hp, rfl⟩ := hrow
    rcases hcond with h | ⟨v, hv, hout⟩
    · show cleanCF (rawCF p) = none
      rw [h]; rfl
    · show cleanCF (rawCF p) = none
      rw [hv, cleanCF]
      rcases hout with h1 | h2
      · rw [if_pos h1]
      · rw [if_neg (not_lt.mpr (le_trans (by norm_num) h2)), if_pos h2]

/-- Witness for C5: a generator producing 20000 MWh on 1 MW has raw
capacity factor 500/219 ≥ 1.5, and the output marks it missing. -/
theorem claim_C5_witness :
    cleanCF (rawCF cfPairW) = none := by
  have hm : cfMerged g9W g8W = [cfPairW] := by
    simp [cfMerged, g9W, g8W, cfPairW]
  have hmem : (cfPairW, cleanCF (rawCF cfPairW)) ∈ capacity_factor g9W g8W := by
    rw [capacity_factor, hm]
    exact List.mem_map_of_mem _ (List.mem_singleton_self _)
  exact (claim_C5_outlier_nan g9W g8W).2 (cfPairW, cleanCF (rawCF cfPairW)) hmem
    (Or.inr ⟨500/219, by norm_num [rawCF, floatDiv, cfPairW],
      Or.inr (by norm_num)⟩)

/-- The empty sample has zero squared deviation. -/
theorem sqdev_nil : sqdev [] = 0 := rfl

/-- An empty sample has an undefined correlation. -/
theorem corrcoef_nil (ys : List ℚ) : corrcoef [] ys = none := by
  rw [corrcoef, if_pos (Or.inl sqdev_nil)]

/-- Membership in the non-fuel-production bucket, unfolded. -/
theorem mem_nonfuel_px (df : List SteamRow) (mc t : ℚ) (c : ExpnsCat) :
    c ∈ nonfuel_px df mc t ↔
      c ≠ ExpnsCat.expns_fuel ∧ optGe (ferc1_expns_corr df mc c) t := by
  unfold nonfuel_px
  rw [@Finset.mem_filter ExpnsCat _ (fun _ => Classical.dec _) Finset.univ c]
  simp

/-- Membership in the non-production bucket, unfolded. -/
theorem mem_npx (df : List SteamRow) (mc t : ℚ) (c : ExpnsCat) :
    c ∈ npx df mc t ↔
      c ≠ ExpnsCat.expns_fuel ∧ optLt (ferc1_expns_corr df mc c) t := by
  unfold npx
  rw [@Finset.mem_filter ExpnsCat _ (fun _ => Classical.dec _) Finset.univ c]
  simp

/-- Claim C6: an expense category with no nonzero values among the
capacity-factor-filtered rows has an undefined (NaN) correlation, lands in
neither the non-fuel-production nor the non-production bucket, and the raw
column survives in the output unchanged (the function is total: no error is
raised). -/
theorem claim_C6_nan_corr_excluded (df : List SteamRow)
    (min_capfac min_corr : ℚ) (c : ExpnsCat)
    (hzero : ∀ r ∈ corrFiltered df min_capfac, r.expns c = 0) :
    ferc1_expns_corr df min_capfac c = none ∧
    c ∉ nonfuel_px df min_capfac min_corr ∧
    c ∉ npx df min_capfac min_corr ∧
    (consolidate_ferc1_expns df min_capfac min_corr).map
      (fun row => row.base) = df := by
  have hnz : (corrFiltered df min_capfac).filter
      (fun r => decide (r.expns c ≠ 0)) = [] := by
    rw [List.filter_eq_nil_iff]
    intro r hr
    simp [hzero r hr]
  have hcorr : ferc1_expns_corr df min_capfac c = none := by
    simp only [ferc1_expns_corr, hnz, List.map_nil]
    exact corrcoef_nil []
  have hnotGe : ¬ optGe (ferc1_expns_corr df min_capfac c) min_corr := by
    rintro ⟨x, hx, -⟩
    rw [hcorr] at hx
    cases hx
  have hnotLt : ¬ optLt (ferc1_expns_corr df min_capfac c) min_corr := by
    rintro ⟨x, hx, -⟩
    rw [hcorr] at hx
    cases hx
  refine ⟨hcorr, ?_, ?_, ?_⟩
  · intro h
    exact hnotGe ((mem_nonfuel_px df min_capfac min_corr c).mp h).2
  · intro h
    exact hnotLt ((mem_npx df min_capfac min_corr c).mp h).2
  · rw [consolidate_ferc1_expns, List.map_map]
    exact List.map_id df

/-- Witness for C6: a single filtered plant with `expns_coolants`
identically zero, checked against the theorem. -/
theorem claim_C6_witness :
    ferc1_expns_corr [steamC6] (3/5) ExpnsCat.expns_coolants = none ∧
    ExpnsCat.expns_coolants ∉ nonfuel_px [steamC6] (3/5) (1/2) ∧
    ExpnsCat.expns_coolants ∉ npx [steamC6] (3/5) (1/2) ∧
    (consolidate_ferc1_expns [steamC6] (3/5) (1/2)).map
      (fun row => row.base) = [steamC6] := by
  apply claim_C6_nan_corr_excluded
  intro r hr
  have hf : corrFiltered [steamC6] (3/5) = [steamC6] := by
    have h : (3 : ℚ)/5 < capfacCode steamC6 := by norm_num [capfacCode, steamC6]
    simp [corrFiltered, h]
  rw [hf, List.mem_singleton] at hr
  subst hr
  rfl

/-- Counterexample to claim C1 as stated: on an input whose single row
fails the capacity-factor filter, every correlation is NaN, both buckets
are empty, and the two derived columns plus the fuel column sum to 0 while
the fifteen original expense columns sum to 1. -/
theorem claim_C1_counterexample :
    ∃ row ∈ consolidate_ferc1_expns [steamZero] (3/5) (1/2),
      row.expns_total_nonfuel_production + row.expns_total_nonproduction +
        row.base.expns ExpnsCat.expns_fuel ≠ ∑ cc, row.base.expns cc := by
  have hfilt : corrFiltered [steamZero] (3/5) = [] := by
    have h : ¬ ((3 : ℚ)/5 < capfacCode steamZero) := by
      norm_num [capfacCode, steamZero]
    simp [corrFiltered, h]
  have hcorr : ∀ cc : ExpnsCat, ferc1_expns_corr [steamZero] (3/5) cc = none := by
    intro cc
    simp only [ferc1_expns_corr, hfilt, List.filter_nil, List.map_nil]
    exact corrcoef_nil []
  have hnf : nonfuel_px [steamZero] (3/5) (1/2) = ∅ := by
    rw [Finset.eq_empty_iff_forall_not_mem]
    intro cc hcc
    obtain ⟨-, x, hx, -⟩ := (mem_nonfuel_px [steamZero] (3/5) (1/2) cc).mp hcc
    rw [hcorr cc] at hx
    cases hx
  have hnp : npx [steamZero] (3/5) (1/2) = ∅ := by
    rw [Finset.eq_empty_iff_forall_not_mem]
    intro cc hcc
    obtain ⟨-, x, hx, -⟩ := (mem_npx [steamZero] (3/5) (1/2) cc).mp hcc
    rw [hcorr cc] at hx
    cases hx
  have hfuel : steamZero.expns ExpnsCat.expns_fuel = 0 := rfl
  have hsum : ∑ cc, steamZero.expns cc = 1 := by
    show ∑ cc : ExpnsCat,
      (if cc = ExpnsCat.expns_operations then (1 : ℚ) else 0) = 1
    rw [Finset.sum_ite_eq' Finset.univ ExpnsCat.expns_operations
      (fun _ => (1 : ℚ))]
    simp
  rw [consolidate_ferc1_expns]
  refine ⟨_, List.mem_map_of_mem _ (List.mem_singleton_self steamZero), ?_⟩
  show (∑ cc ∈ nonfuel_px [steamZero] (3/5) (1/2), steamZero.expns cc) +
      (∑ cc ∈ npx [steamZero] (3/5) (1/2), steamZero.expns cc) +
      steamZero.expns ExpnsCat.expns_fuel ≠ ∑ cc, steamZero.expns cc
  rw [hnf, hnp, Finset.sum_empty, hfuel, hsum]
  norm_num

/-- Claim C1, amended: provided every non-fuel expense category has a
*defined* correlation over the filtered rows, the fourteen non-fuel
categories are partitioned between the two buckets, so for every output
row the two derived totals plus the fuel column equal the sum of the
fifteen original expense columns (exactly, in exact arithmetic). -/
theorem claim_C1_partition (df : List SteamRow) (min_capfac min_corr : ℚ)
    (hdef : ∀ cc : ExpnsCat, cc ≠ ExpnsCat.expns_fuel →
      ferc1_expns_corr df min_capfac cc ≠ none) :
    ∀ row ∈ consolidate_ferc1_expns df min_capfac min_corr,
      row.expns_total_nonfuel_production + row.expns_total_nonproduction +
        row.base.expns ExpnsCat.expns_fuel = ∑ cc, row.base.expns cc := by
  intro row hrow
  rw [consolidate_ferc1_expns, List.mem_map] at hrow
  obtain ⟨r, -, rfl⟩ := hrow
  have hdisj : Disjoint (nonfuel_px df min_capfac min_corr)
      (npx df min_capfac min_corr) := by
    rw [Finset.disjoint_left]
    intro cc h1 h2
    obtain ⟨x, hx, hxge⟩ := ((mem_nonfuel_px df _ _ cc).mp h1).2
    obtain ⟨y, hy, hylt⟩ := ((mem_npx df _ _ cc).mp h2).2
    rw [hx] at hy
    injection hy with hy
    subst hy
    exact absurd hxge (not_le.mpr hylt)
  have hunion : nonfuel_px df min_capfac min_corr ∪ npx df min_capfac min_corr
      = Finset.univ.erase ExpnsCat.expns_fuel := by
    ext cc
    simp only [Finset.mem_union, Finset.mem_erase, Finset.mem_univ, and_true]
    constructor
    · rintro (h | h)
      · exact ((mem_nonfuel_px df _ _ cc).mp h).1
      · exact ((mem_npx df _ _ cc).mp h).1
    · intro hne
      obtain ⟨x, hx⟩ := Option.ne_none_iff_exists'.mp (hdef cc hne)
      rcases le_or_lt (min_corr : ℝ) x with hge | hlt
      · exact Or.inl ((mem_nonfuel_px df _ _ cc).mpr ⟨hne, x, hx, hge⟩)
      · exact Or.inr ((mem_npx df _ _ cc).mpr ⟨hne, x, hx, hlt⟩)
  show (∑ cc ∈ nonfuel_px df min_capfac min_corr, r.expns cc) +
    (∑ cc ∈ npx df min_capfac min_corr, r.expns cc) +
    r.expns ExpnsCat.expns_fuel = ∑ cc, r.expns cc
  rw [← Finset.sum_union hdisj, hunion,
    Finset.sum_erase_add Finset.univ _ (Finset.mem_univ ExpnsCat.expns_fuel)]

/-- Witness for C1: two plants passing the filter with every expense column
equal to net generation, so all fourteen correlations are defined; the
theorem's partition identity holds on the first output row. -/
theorem claim_C1_witness :
    consRowW ∈ consolidate_ferc1_expns steamDfW (3/5) (1/2) ∧
    consRowW.expns_total_nonfuel_production +
      consRowW.expns_total_nonproduction +
      consRowW.base.expns ExpnsCat.expns_fuel
      = ∑ cc, consRowW.base.expns cc := by
  have hone : corrFiltered steamDfW (3/5) = steamDfW := by
    have h1 : (3 : ℚ)/5 < capfacCode steamW1 := by norm_num [capfacCode, steamW1]
    have h2 : (3 : ℚ)/5 < capfacCode steamW2 := by norm_num [capfacCode, steamW2]
    simp [corrFiltered, steamDfW, h1, h2]
  have hdefW : ∀ cc : ExpnsCat, cc ≠ ExpnsCat.expns_fuel →
      ferc1_expns_corr steamDfW (3/5) cc ≠ none := by
    intro cc hcc
    simp only [ferc1_expns_corr, hone]
    have e1 : steamW1.expns cc = 8760 := rfl
    have e2 : steamW2.expns cc = 17520 := rfl
    have hfil : steamDfW.filter (fun r => decide (r.expns cc ≠ 0)) = steamDfW := by
      norm_num [steamDfW, e1, e2]
    rw [hfil]
    have hx : steamDfW.map (fun r => r.net_generation_mwh) = [8760, 17520] := rfl
    have hy : steamDfW.map (fun r => r.expns cc) = [8760, 17520] := rfl
    rw [hx, hy, corrcoef, if_neg]
    · simp
    · have hs : sqdev [(8760 : ℚ), 17520] = 38368800 := by
        norm_num [sqdev, lmean]
      norm_num [hs]
  have hmem : consRowW ∈ consolidate_ferc1_expns steamDfW (3/5) (1/2) := by
    rw [consolidate_ferc1_expns]
    exact List.mem_map_of_mem _ (by simp [steamDfW])
  exact ⟨hmem, claim_C1_partition steamDfW (3/5) (1/2) hdefW consRowW hmem⟩

/-- Summing a list divided pointwise by a constant divides the sum. -/
theorem sum_map_div {α : Type} (l : List α) (g : α → ℚ) (T : ℚ) :
    (l.map (fun x => g x / T)).sum = (l.map g).sum / T := by
  induction l with
  | nil => simp
  | cons a l ih => simp [ih, add_div]

/-- With a nonzero row total, every share cell is the defined quotient. -/
theorem share_defined {κ : Type} [DecidableEq κ]
    (recs : List (κ × String × ℚ)) (k : κ) (f : String)
    (hT : rowTotal recs k ≠ 0) :
    share recs k f = some ((pivotCell recs k f).getD 0 / rowTotal recs k) := by
  rw [share, if_neg hT]

/-- With a zero row total, every share cell is the non-finite `0/0`. -/
theorem share_undefined {κ : Type} [DecidableEq κ]
    (recs : List (κ × String × ℚ)) (k : κ) (f : String)
    (hT : rowTotal recs k = 0) :
    share recs k f = none := by
  rw [share, if_pos hT]

/-- With a nonzero row total, the share columns of a pivot row sum to 1. -/
theorem share_sum_one {κ : Type} [DecidableEq κ]
    (recs : List (κ × String × ℚ)) (k : κ)
    (hT : rowTotal recs k ≠ 0) :
    ((pivotFuels recs).map (fun f => (share recs k f).getD 0)).sum = 1 := by
  have h1 : (pivotFuels recs).map (fun f => (share recs k f).getD 0)
      = (pivotFuels recs).map
        (fun f => (pivotCell recs k f).getD 0 / rowTotal recs k) := by
    apply List.map_congr_left
    intro f _
    rw [share_defined recs k f hT]
    rfl
  rw [h1, sum_map_div]
  show rowTotal recs k / rowTotal recs k = 1
  exact div_self hT

/-- Claim C4, amended: in `plant_fuel_proportions_ferc1` and
`plant_fuel_proportions_frc_eia923`, every (plant, year) group whose total
heat content is nonzero has fuel-share columns summing to exactly 1; a group
whose total is zero (e.g. every fuel's heat content zero or absent) has
every share cell missing (NaN from the 0/0 division) — not 0. -/
theorem claim_C4_share_sum :
    (∀ (df : List FuelF1Row), ∀ g ∈ plant_fuel_proportions_ferc1 df,
      (g.2.2 ≠ 0 →
        ((pivotFuels (ferc1Recs df)).map (fun f => (g.2.1 f).getD 0)).sum = 1) ∧
      (g.2.2 = 0 → ∀ f, g.2.1 f = none)) ∧
    (∀ (df : List FrcRow), ∀ g ∈ plant_fuel_proportions_frc_eia923 df,
      (rowTotal (frcGrouped df) g.1 ≠ 0 →
        ((pivotFuels (frcGrouped df)).map (fun f => (g.2 f).getD 0)).sum = 1) ∧
      (rowTotal (frcGrouped df) g.1 = 0 → ∀ f, g.2 f = none)) := by
  constructor
  · intro df g hg
    rw [plant_fuel_proportions_ferc1, List.mem_map] at hg
    obtain ⟨k, -, rfl⟩ := hg
    exact ⟨fun hT => share_sum_one (ferc1Recs df) k hT,
      fun hT f => share_undefined (ferc1Recs df) k f hT⟩
  · intro df g hg
    rw [plant_fuel_proportions_frc_eia923, List.mem_map] at hg
    obtain ⟨k, -, rfl⟩ := hg
    exact ⟨fun hT => share_sum_one (frcGrouped df) k hT,
      fun hT f => share_undefined (frcGrouped df) k f hT⟩

/-- Counterexample to claim C4 as stated: a FERC plant-year whose only fuel
record burned zero quantity.  The group exists, every heat content is zero,
and the claim demands share = 0; the code divides 0 by the zero total and
stores NaN (a missing value), not 0. -/
theorem claim_C4_counterexample :
    (2015, 1, "X") ∈ groupKeys (ferc1Recs fuelDfZero) ∧
    "gas" ∈ pivotFuels (ferc1Recs fuelDfZero) ∧
    ¬ share (ferc1Recs fuelDfZero) (2015, 1, "X") "gas" = some 0 ∧
    share (ferc1Recs fuelDfZero) (2015, 1, "X") "gas" = none := by
  have hrecs : ferc1Recs fuelDfZero = [((2015, 1, "X"), "gas", 0)] := by
    norm_num [ferc1Recs, fuelDfZero]
  have hfuels : pivotFuels (ferc1Recs fuelDfZero) = ["gas"] := by
    rw [hrecs]
    simp [pivotFuels, List.insertionSort, List.orderedInsert]
  have hcell : pivotCell (ferc1Recs fuelDfZero) (2015, 1, "X") "gas"
      = some 0 := by
    rw [hrecs]
    norm_num [pivotCell, cellVals]
  have hT : rowTotal (ferc1Recs fuelDfZero) (2015, 1, "X") = 0 := by
    rw [rowTotal, hfuels]
    simp [hcell]
  have hshare := share_undefined (ferc1Recs fuelDfZero) (2015, 1, "X") "gas" hT
  refine ⟨?_, ?_, ?_, hshare⟩
  · rw [hrecs]
    simp [groupKeys]
  · rw [hfuels]
    simp
  · rw [hshare]
    simp

/-- The two witness fuel names differ. -/
theorem gas_ne_coal : ("gas" : String) ≠ "coal" := by decide

/-- The two witness fuel names differ (symmetric form). -/
theorem coal_ne_gas : ("coal" : String) ≠ "gas" := by decide

/-- Witness for C4: the 300/700 gas/coal plant-year has total 1000 and its
shares sum to 1, in both the FERC and the EIA-923 receipts pipeline. -/
theorem claim_C4_witness :
    rowTotal (ferc1Recs fuelDfW) fuelKW ≠ 0 ∧
    ((pivotFuels (ferc1Recs fuelDfW)).map
      (fun f => (share (ferc1Recs fuelDfW) fuelKW f).getD 0)).sum = 1 ∧
    rowTotal (frcGrouped frcDfW) frcKW ≠ 0 ∧
    ((pivotFuels (frcGrouped frcDfW)).map
      (fun f => (share (frcGrouped frcDfW) frcKW f).getD 0)).sum = 1 := by
  have hrecs : ferc1Recs fuelDfW = [(fuelKW, "gas", 300), (fuelKW, "coal", 700)] := by
    norm_num [ferc1Recs, fuelDfW, fuelKW]
  have hfuels : pivotFuels (ferc1Recs fuelDfW) = ["coal", "gas"] := by
    rw [hrecs]
    simp [pivotFuels, List.insertionSort, List.orderedInsert]
    decide
  have hcg : pivotCell (ferc1Recs fuelDfW) fuelKW "gas" = some 300 := by
    rw [hrecs]
    norm_num [pivotCell, cellVals, gas_ne_coal, coal_ne_gas]
  have hcc : pivotCell (ferc1Recs fuelDfW) fuelKW "coal" = some 700 := by
    rw [hrecs]
    norm_num [pivotCell, cellVals, gas_ne_coal, coal_ne_gas]
  have hT1 : rowTotal (ferc1Recs fuelDfW) fuelKW = 1000 := by
    rw [rowTotal, hfuels]
    simp [hcg, hcc]
    norm_num
  have hgrp : frcGrouped frcDfW = [(frcKW, "gas", 300), (frcKW, "coal", 700)] := by
    norm_num [frcGrouped, frcDfW, frcKW, gas_ne_coal, coal_ne_gas]
  have hfuels2 : pivotFuels (frcGrouped frcDfW) = ["coal", "gas"] := by
    rw [hgrp]
    simp [pivotFuels, List.insertionSort, List.orderedInsert]
    decide
  have hcg2 : pivotCell (frcGrouped frcDfW) frcKW "gas" = some 300 := by
    rw [hgrp]
    norm_num [pivotCell, cellVals, gas_ne_coal, coal_ne_gas]
  have hcc2 : pivotCell (frcGrouped frcDfW) frcKW "coal" = some 700 := by
    rw [hgrp]
    norm_num [pivotCell, cellVals, gas_ne_coal, coal_ne_gas]
  have hT2 : rowTotal (frcGrouped frcDfW) frcKW = 1000 := by
    rw [rowTotal, hfuels2]
    simp [hcg2, hcc2]
    norm_num
  have hne1 : rowTotal (ferc1Recs fuelDfW) fuelKW ≠ 0 := by
    rw [hT1]; norm_num
  have hne2 : rowTotal (frcGrouped frcDfW) frcKW ≠ 0 := by
    rw [hT2]; norm_num
  have hmem1 : (fuelKW, (fun f => share (ferc1Recs fuelDfW) fuelKW f),
      rowTotal (ferc1Recs fuelDfW) fuelKW) ∈ plant_fuel_proportions_ferc1 fuelDfW := by
    rw [plant_fuel_proportions_ferc1]
    apply List.mem_map_of_mem
    rw [hrecs]
    simp [groupKeys]
  have hmem2 : (frcKW, fun f => share (frcGrouped frcDfW) frcKW f)
      ∈ plant_fuel_proportions_frc_eia923 frcDfW := by
    rw [plant_fuel_proportions_frc_eia923]
    apply List.mem_map_of_mem
    rw [hgrp]
    simp [groupKeys]
  exact ⟨hne1, (claim_C4_share_sum.1 fuelDfW _ hmem1).1 hne1,
    hne2, (claim_C4_share_sum.2 frcDfW _ hmem2).1 hne2⟩

/-- Every element of a list is at most its `foldr max` accumulation. -/
theorem le_foldr_max (l : List ℚ) (a : ℚ) : ∀ x ∈ l, x ≤ l.foldr max a := by
  induction l with
  | nil => intro x hx; cases hx
  | cons y l ih =>
    intro x hx
    rcases List.mem_cons.mp hx with rfl | hx
    · exact le_max_left _ _
    · exact le_trans (ih x hx) (le_max_right _ _)

/-- A `foldr max` accumulation is the seed or an element of the list. -/
theorem foldr_max_eq_or_mem (l : List ℚ) (a : ℚ) :
    l.foldr max a = a ∨ l.foldr max a ∈ l := by
  induction l with
  | nil => exact Or.inl rfl
  | cons y l ih =>
    rcases max_choice y (l.foldr max a) with h | h
    · exact Or.inr (by rw [List.foldr_cons, h]; exact List.mem_cons_self _ _)
    · rcases ih with h2 | h2
      · exact Or.inl (by rw [List.foldr_cons, h, h2])
      · exact Or.inr (by rw [List.foldr_cons, h]; exact List.mem_cons_of_mem _ h2)

/-- The running-maximum fold inside `idxmax` returns one of its inputs. -/
theorem foldl_argmax_mem (c0 : String × ℚ) (rest : List (String × ℚ)) :
    rest.foldl (fun best p => if p.2 > best.2 then p else best) c0 ∈ c0 :: rest := by
  induction rest generalizing c0 with
  | nil => exact List.mem_singleton_self c0
  | cons a l ih =>
    rw [List.foldl_cons]
    rcases List.mem_cons.mp (ih (if a.2 > c0.2 then a else c0)) with h | h
    · rw [h]
      by_cases hc : a.2 > c0.2
      · rw [if_pos hc]; exact List.mem_cons_of_mem _ (List.mem_cons_self _ _)
      · rw [if_neg hc]; exact List.mem_cons_self _ _
    · exact List.mem_cons_of_mem _ (List.mem_cons_of_mem _ h)

/-- The running-maximum fold inside `idxmax` dominates every input. -/
theorem foldl_argmax_le (c0 : String × ℚ) (rest : List (String × ℚ)) :
    ∀ p ∈ c0 :: rest,
      p.2 ≤ (rest.foldl (fun best p => if p.2 > best.2 then p else best) c0).2 := by
  induction rest generalizing c0 with
  | nil =>
    intro p hp
    rw [List.mem_singleton] at hp
    subst hp
    exact le_refl _
  | cons a l ih =>
    intro p hp
    rw [List.foldl_cons]
    have hstep : c0.2 ≤ (if a.2 > c0.2 then a else c0).2 ∧
        a.2 ≤ (if a.2 > c0.2 then a else c0).2 := by
      by_cases hc : a.2 > c0.2
      · rw [if_pos hc]; exact ⟨le_of_lt hc, le_refl _⟩
      · rw [if_neg hc]; exact ⟨le_refl _, not_lt.mp hc⟩
    have hhead := ih (if a.2 > c0.2 then a else c0) _ (List.mem_cons_self _ _)
    rcases List.mem_cons.mp hp with rfl | hp2
    · exact le_trans hstep.1 hhead
    · rcases List.mem_cons.mp hp2 with rfl | hp3
      · exact le_trans hstep.2 hhead
      · exact ih _ p (List.mem_cons_of_mem _ hp3)

/-- `idxmax` over all-NaN cells is NaN. -/
theorem idxmax_none (cols : List String) (vals : String → Option ℚ)
    (h : ∀ c ∈ cols, vals c = none) : idxmax cols vals = none := by
  have hnil : cols.filterMap (fun c => (vals c).map (fun v => (c, v))) = [] := by
    rw [List.filterMap_eq_nil_iff]
    intro c hc
    rw [h c hc]
    rfl
  simp only [idxmax]
  rw [hnil]

/-- When an upper bound `M` is attained by some non-NaN cell, `idxmax`
returns a column holding exactly `M`. -/
theorem idxmax_attains (cols : List String) (vals : String → Option ℚ) (M : ℚ)
    (hub : ∀ c ∈ cols, ∀ v, vals c = some v → v ≤ M)
    (hex : ∃ c ∈ cols, vals c = some M) :
    ∃ c, idxmax cols vals = some c ∧ vals c = some M := by
  obtain ⟨cM, hcM, hvM⟩ := hex
  have hmemM : (cM, M) ∈ cols.filterMap (fun c => (vals c).map (fun v => (c, v))) := by
    rw [List.mem_filterMap]
    exact ⟨cM, hcM, by rw [hvM]; rfl⟩
  simp only [idxmax]
  cases hcands : cols.filterMap (fun c => (vals c).map (fun v => (c, v))) with
  | nil =>
    rw [hcands] at hmemM
    cases hmemM
  | cons c0 rest =>
    rw [hcands] at hmemM
    have hmem := foldl_argmax_mem c0 rest
    have hmemf : rest.foldl (fun best p => if p.2 > best.2 then p else best) c0
        ∈ cols.filterMap (fun c => (vals c).map (fun v => (c, v))) := by
      rw [hcands]
      exact hmem
    obtain ⟨c', hc', hmap⟩ := List.mem_filterMap.mp hmemf
    obtain ⟨v', hv', hpair⟩ := Option.map_eq_some'.mp hmap
    have hub' : (rest.foldl (fun best p => if p.2 > best.2 then p else best) c0).2
        ≤ M := by
      rw [← hpair]
      exact hub c' hc' v' hv'
    have hge : M ≤ (rest.foldl (fun best p => if p.2 > best.2 then p else best) c0).2 :=
      foldl_argmax_le c0 rest (cM, M) hmemM
    have hMv : v' = M := by
      have h2 : (rest.foldl (fun best p => if p.2 > best.2 then p else best) c0).2
          = M := le_antisymm hub' hge
      rw [← hpair] at h2
      exact h2
    refine ⟨(rest.foldl (fun best p => if p.2 > best.2 then p else best) c0).1,
      rfl, ?_⟩
    rw [← hpair, hv', hMv]

/-- `df.where(df >= t)` keeps exactly the defined cells at or above `t`. -/
theorem maskGE_some (t : ℚ) (o : Option ℚ) (v : ℚ) :
    maskGE t o = some v ↔ o = some v ∧ t ≤ v := by
  cases o with
  | none => simp [maskGE]
  | some w =>
    simp only [maskGE]
    by_cases h : t ≤ w
    · rw [if_pos h]
      constructor
      · intro he
        injection he with he
        subst he
        exact ⟨rfl, h⟩
      · rintro ⟨he, -⟩
        injection he with he
        rw [he]
    · rw [if_neg h]
      constructor
      · intro he
        cases he
      · rintro ⟨he, hv⟩
        injection he with he
        subst he
        exact absurd hv h

/-- The mask-and-idxmax step of the `primary_fuel_*` family: with a nonzero
group total and a positive threshold, a maximum share below the threshold
yields no primary fuel, and a maximum share at or above it yields a fuel
attaining that maximum. -/
theorem primary_of_shares {κ : Type} [DecidableEq κ]
    (recs : List (κ × String × ℚ)) (k : κ) (t : ℚ)
    (ht : 0 < t) (hT : rowTotal recs k ≠ 0) :
    (maxShareOf recs k < t →
      idxmax (pivotFuels recs) (fun f => maskGE t (share recs k f)) = none) ∧
    (t ≤ maxShareOf recs k →
      ∃ f, idxmax (pivotFuels recs) (fun f => maskGE t (share recs k f)) = some f ∧
        share recs k f = some (maxShareOf recs k)) := by
  constructor
  · intro hlt
    apply idxmax_none
    intro f hf
    cases hmk : maskGE t (share recs k f) with
    | none => rfl
    | some v =>
      obtain ⟨hs, htv⟩ := (maskGE_some t _ v).mp hmk
      have hle : v ≤ maxShareOf recs k := by
        rw [maxShareOf]
        apply le_foldr_max
        rw [List.mem_map]
        exact ⟨f, hf, by rw [hs]; rfl⟩
      exact absurd htv (not_le.mpr (lt_of_le_of_lt hle hlt))
  · intro hge
    have hpos : 0 < maxShareOf recs k := lt_of_lt_of_le ht hge
    have hattain : ∃ f ∈ pivotFuels recs,
        (share recs k f).getD 0 = maxShareOf recs k := by
      rw [maxShareOf] at hpos ⊢
      rcases foldr_max_eq_or_mem
        ((pivotFuels recs).map (fun f => (share recs k f).getD 0)) 0 with h | h
      · rw [h] at hpos
        exact absurd hpos (lt_irrefl 0)
      · obtain ⟨f, hf, hval⟩ := List.mem_map.mp h
        exact ⟨f, hf, hval⟩
    obtain ⟨fM, hfM, hvalM⟩ := hattain
    have hsM : share recs k fM = some (maxShareOf recs k) := by
      rw [share_defined recs k fM hT] at hvalM ⊢
      rw [Option.getD_some] at hvalM
      rw [hvalM]
    obtain ⟨f, hidx, hmask⟩ := idxmax_attains (pivotFuels recs)
      (fun f => maskGE t (share recs k f)) (maxShareOf recs k)
      (by
        intro c hc v hv
        obtain ⟨hs, -⟩ := (maskGE_some t _ v).mp hv
        rw [maxShareOf]
        apply le_foldr_max
        rw [List.mem_map]
        exact ⟨c, hc, by rw [hs]; rfl⟩)
      ⟨fM, hfM, (maskGE_some t _ _).mpr ⟨hsM, hge⟩⟩
    exact ⟨f, hidx, ((maskGE_some t _ _).mp hmask).1⟩

/-- Counterexample to claim C3 as stated: `primary_fuel_gf_eia923` never
reaches the threshold logic — it sets the index to columns
`['plant_id_eia', 'report_year']`, but its proportions helper produces
columns `year`, `plant_id` and the fuels, so pandas raises `KeyError` on
every input, here a well-formed single-row one whose primary fuel the claim
says should be "gas". -/
theorem claim_C3_counterexample :
    primary_fuel_gf_eia923 gfDfC3 (1/2) = .error "KeyError: plant_id_eia" := by
  have hgrp : gfGrouped gfDfC3 = [((1, 2015), "gas", 100)] := by
    norm_num [gfGrouped, gfDfC3]
  have hcols : gf_prop_cols gfDfC3 = ["year", "plant_id", "gas"] := by
    rw [gf_prop_cols, hgrp]
    simp [pivotFuels, List.insertionSort, List.orderedInsert]
  have hnot : ¬ ("plant_id_eia" ∈ gf_prop_cols gfDfC3 ∧
      "report_year" ∈ gf_prop_cols gfDfC3) := by
    rintro ⟨h, -⟩
    rw [hcols] at h
    exact absurd h (by decide)
  rw [primary_fuel_gf_eia923, if_neg hnot]

/-- Claim C3, amended: for `primary_fuel_ferc1` and
`primary_fuel_frc_eia923` (with a positive threshold and a group with
nonzero total heat content), a maximum fuel share below the threshold
leaves `primary_fuel` unset, and a maximum share at or above it makes
`primary_fuel` a fuel attaining that maximum share.
(`primary_fuel_gf_eia923` instead always raises `KeyError`, see the
counterexample.) -/
theorem claim_C3_amended :
    (∀ (df : List FuelF1Row) (t : ℚ), 0 < t →
      ∀ p ∈ primary_fuel_ferc1 df t,
        rowTotal (ferc1Recs df) p.1 ≠ 0 →
        (maxShareOf (ferc1Recs df) p.1 < t → p.2 = none) ∧
        (t ≤ maxShareOf (ferc1Recs df) p.1 →
          ∃ f, p.2 = some f ∧
            share (ferc1Recs df) p.1 f = some (maxShareOf (ferc1Recs df) p.1))) ∧
    (∀ (df : List FrcRow) (t : ℚ), 0 < t →
      ∀ p ∈ primary_fuel_frc_eia923 df t,
        rowTotal (frcGrouped df) p.1 ≠ 0 →
        (maxShareOf (frcGrouped df) p.1 < t → p.2 = none) ∧
        (t ≤ maxShareOf (frcGrouped df) p.1 →
          ∃ f, p.2 = some f ∧
            share (frcGrouped df) p.1 f
              = some (maxShareOf (frcGrouped df) p.1))) := by
  constructor
  · intro df t ht p hp hT
    rw [primary_fuel_ferc1, List.mem_map] at hp
    obtain ⟨g, hg, rfl⟩ := hp
    rw [plant_fuel_proportions_ferc1, List.mem_map] at hg
    obtain ⟨k, -, rfl⟩ := hg
    exact primary_of_shares (ferc1Recs df) k t ht hT
  · intro df t ht p hp hT
    rw [primary_fuel_frc_eia923, List.mem_map] at hp
    obtain ⟨g, hg, rfl⟩ := hp
    rw [plant_fuel_proportions_frc_eia923, List.mem_map] at hg
    obtain ⟨k, -, rfl⟩ := hg
    exact primary_of_shares (frcGrouped df) k t ht hT

/-- Witness for C3: on the 300/700 gas/coal data both pipelines satisfy the
thresholded-maximum property at the default threshold 1/2. -/
theorem claim_C3_witness :
    ((maxShareOf (ferc1Recs fuelDfW) fuelKW < 1/2 → primW = none) ∧
     (1/2 ≤ maxShareOf (ferc1Recs fuelDfW) fuelKW →
       ∃ f, primW = some f ∧
         share (ferc1Recs fuelDfW) fuelKW f
           = some (maxShareOf (ferc1Recs fuelDfW) fuelKW))) ∧
    ((maxShareOf (frcGrouped frcDfW) frcKW < 1/2 → frcPrimW = none) ∧
     (1/2 ≤ maxShareOf (frcGrouped frcDfW) frcKW →
       ∃ f, frcPrimW = some f ∧
         share (frcGrouped frcDfW) frcKW f
           = some (maxShareOf (frcGrouped frcDfW) frcKW))) := by
  have hrecs : ferc1Recs fuelDfW = [(fuelKW, "gas", 300), (fuelKW, "coal", 700)] := by
    norm_num [ferc1Recs, fuelDfW, fuelKW]
  have hgrp : frcGrouped frcDfW = [(frcKW, "gas", 300), (frcKW, "coal", 700)] := by
    norm_num [frcGrouped, frcDfW, frcKW, gas_ne_coal, coal_ne_gas]
  have hfuels : pivotFuels (ferc1Recs fuelDfW) = ["coal", "gas"] := by
    rw [hrecs]
    simp [pivotFuels, List.insertionSort, List.orderedInsert]
    decide
  have hfuels2 : pivotFuels (frcGrouped frcDfW) = ["coal", "gas"] := by
    rw [hgrp]
    simp [pivotFuels, List.insertionSort, List.orderedInsert]
    decide
  have hcg : pivotCell (ferc1Recs fuelDfW) fuelKW "gas" = some 300 := by
    rw [hrecs]
    norm_num [pivotCell, cellVals, gas_ne_coal, coal_ne_gas]
  have hcc : pivotCell (ferc1Recs fuelDfW) fuelKW "coal" = some 700 := by
    rw [hrecs]
    norm_num [pivotCell, cellVals, gas_ne_coal, coal_ne_gas]
  have hT1 : rowTotal (ferc1Recs fuelDfW) fuelKW = 1000 := by
    rw [rowTotal, hfuels]
    simp [hcg, hcc]
    norm_num
  have hcg2 : pivotCell (frcGrouped frcDfW) frcKW "gas" = some 300 := by
    rw [hgrp]
    norm_num [pivotCell, cellVals, gas_ne_coal, coal_ne_gas]
  have hcc2 : pivotCell (frcGrouped frcDfW) frcKW "coal" = some 700 := by
    rw [hgrp]
    norm_num [pivotCell, cellVals, gas_ne_coal, coal_ne_gas]
  have hT2 : rowTotal (frcGrouped frcDfW) frcKW = 1000 := by
    rw [rowTotal, hfuels2]
    simp [hcg2, hcc2]
    norm_num
  have hne1 : rowTotal (ferc1Recs fuelDfW) fuelKW ≠ 0 := by
    rw [hT1]; norm_num
  have hne2 : rowTotal (frcGrouped frcDfW) frcKW ≠ 0 := by
    rw [hT2]; norm_num
  have hkg1 : fuelKW ∈ groupKeys (ferc1Recs fuelDfW) := by
    rw [hrecs]; simp [groupKeys]
  have hkg2 : frcKW ∈ groupKeys (frcGrouped frcDfW) := by
    rw [hgrp]; simp [groupKeys]
  have h1 : (fuelKW, (fun f => share (ferc1Recs fuelDfW) fuelKW f),
      rowTotal (ferc1Recs fuelDfW) fuelKW)
      ∈ plant_fuel_proportions_ferc1 fuelDfW := by
    rw [plant_fuel_proportions_ferc1]
    exact List.mem_map_of_mem _ hkg1
  have h2 : (frcKW, fun f => share (frcGrouped frcDfW) frcKW f)
      ∈ plant_fuel_proportions_frc_eia923 frcDfW := by
    rw [plant_fuel_proportions_frc_eia923]
    exact List.mem_map_of_mem _ hkg2
  have hmemP1 : (fuelKW, primW) ∈ primary_fuel_ferc1 fuelDfW (1/2) := by
    rw [primary_fuel_ferc1]
    exact List.mem_map_of_mem _ h1
  have hmemP2 : (frcKW, frcPrimW) ∈ primary_fuel_frc_eia923 frcDfW (1/2) := by
    rw [primary_fuel_frc_eia923]
    exact List.mem_map_of_mem _ h2
  exact ⟨claim_C3_amended.1 fuelDfW (1/2) (by norm_num) (fuelKW, primW) hmemP1 hne1,
    claim_C3_amended.2 frcDfW (1/2) (by norm_num) (frcKW, frcPrimW) hmemP2 hne2⟩

/-- Two Boolean predicates agreeing on a list's elements give the same
`List.all` verdict there. -/
theorem all_eq_of_forall_eq {α : Type} (p q : α → Bool) :
    ∀ l : List α, (∀ a ∈ l, p a = q a) → l.all p = l.all q
  | [], _ => rfl
  | a :: t, h => by
    rw [List.all_cons, List.all_cons, h a (List.mem_cons_self a t),
      all_eq_of_forall_eq p q t (fun x hx => h x (List.mem_cons_of_mem a hx))]

/-- Column lookup on a nonempty row, case-split on the head. -/
theorem getCol_cons (p : String × Val) (l : Row) (c : String) :
    getCol (p :: l) c = if p.1 = c then some p.2 else getCol l c := by
  rw [getCol, List.find?_cons]
  by_cases h : p.1 = c
  · simp [h]
  · simp [h, getCol]

/-- A lookup misses exactly the absent columns. -/
theorem getCol_eq_none (r : Row) (c : String) :
    getCol r c = none ↔ c ∉ rowCols r := by
  induction r with
  | nil => simp [getCol, rowCols]
  | cons p l ih =>
    by_cases h : p.1 = c
    · simp [getCol_cons, h, rowCols]
    · have h2 : ¬ (c = p.1) := fun hc => h hc.symm
      simp [getCol_cons, h, h2, rowCols, ih]

/-- A row has an entry under `c` exactly when `c` is among its columns. -/
theorem any_key_mem (r : Row) (c : String) :
    r.any (fun p => decide (p.1 = c)) = true ↔ c ∈ rowCols r := by
  rw [List.any_eq_true]
  constructor
  · rintro ⟨p, hp, hdec⟩
    have := of_decide_eq_true hdec
    rw [rowCols, List.mem_map]
    exact ⟨p, hp, this⟩
  · intro hc
    rw [rowCols, List.mem_map] at hc
    obtain ⟨p, hp, hpc⟩ := hc
    exact ⟨p, hp, decide_eq_true hpc⟩

/-- Overwriting every `c`-keyed entry makes the lookup of `c` return the
new value, provided such an entry exists. -/
theorem getCol_overwrite (r : Row) (c : String) (v : Val) :
    getCol (r.map (fun p => if p.1 = c then (c, v) else p)) c
      = if r.any (fun p => decide (p.1 = c)) = true then some v else none := by
  induction r with
  | nil => simp [getCol]
  | cons p l ih =>
    by_cases h : p.1 = c
    · simp [getCol_cons, h, ih]
    · rw [List.map_cons, if_neg h, getCol_cons, if_neg h, ih, List.any_cons]
      have hor : (decide (p.1 = c) || l.any (fun p => decide (p.1 = c)))
          = l.any (fun p => decide (p.1 = c)) := by
        rw [decide_eq_false h, Bool.false_or]
      rw [hor]

/-- Appending a fresh `(c, v)` entry to a row without `c` makes the lookup
of `c` return `v`. -/
theorem getCol_append_new (r : Row) (c : String) (v : Val)
    (h : ¬ r.any (fun p => decide (p.1 = c)) = true) :
    getCol (r ++ [(c, v)]) c = some v := by
  induction r with
  | nil => simp [getCol_cons]
  | cons p l ih =>
    have hp : ¬ p.1 = c := fun hc =>
      h (by rw [List.any_cons, decide_eq_true hc, Bool.true_or])
    have hl : ¬ l.any (fun p => decide (p.1 = c)) = true := fun hc =>
      h (by rw [List.any_cons, hc, Bool.or_true])
    rw [List.cons_append, getCol_cons, if_neg hp]
    exact ih hl

/-- `setCol` stores the assigned value under the assigned column. -/
theorem getCol_setCol_self (r : Row) (c : String) (v : Val) :
    getCol (setCol r c v) c = some v := by
  rw [setCol]
  by_cases h : r.any (fun p => decide (p.1 = c)) = true
  · rw [if_pos h, getCol_overwrite, if_pos h]
  · rw [if_neg h, getCol_append_new r c v h]

/-- `setCol` leaves every other column's value unchanged. -/
theorem getCol_setCol_ne (r : Row) (c : String) (v : Val) (k : String)
    (hk : k ≠ c) : getCol (setCol r c v) k = getCol r k := by
  rw [setCol]
  by_cases h : r.any (fun p => decide (p.1 = c)) = true
  · rw [if_pos h]
    clear h
    induction r with
    | nil => simp [getCol]
    | cons p l ih =>
      by_cases hp : p.1 = c
      · have hpk : ¬ p.1 = k := by
          rw [hp]
          exact fun hc => hk hc.symm
        have hck : ¬ (c : String) = k := fun hc => hk hc.symm
        simp [getCol_cons, hp, hpk, hck, ih]
      · simp [getCol_cons, hp, ih]
  · rw [if_neg h]
    clear h
    induction r with
    | nil => rw [List.nil_append, getCol_cons, if_neg (fun hc => hk hc.symm)]
    | cons p l ih => simp [getCol_cons, ih]

/-- The columns of a row after `setCol`. -/
theorem rowCols_setCol (r : Row) (c : String) (v : Val) :
    rowCols (setCol r c v)
      = if r.any (fun p => decide (p.1 = c)) = true then rowCols r
        else rowCols r ++ [c] := by
  rw [setCol]
  by_cases h : r.any (fun p => decide (p.1 = c)) = true
  · rw [if_pos h, if_pos h, rowCols, rowCols, List.map_map]
    apply List.map_congr_left
    intro p _
    by_cases hp : p.1 = c
    · simp [hp]
    · simp [hp]
  · rw [if_neg h, if_neg h, rowCols, rowCols, List.map_append]
    rfl

/-- The assigned column is present after `setCol`. -/
theorem mem_rowCols_setCol (r : Row) (c : String) (v : Val) :
    c ∈ rowCols (setCol r c v) := by
  rw [rowCols_setCol]
  by_cases h : r.any (fun p => decide (p.1 = c)) = true
  · rw [if_pos h]
    exact (any_key_mem r c).mp h
  · rw [if_neg h]
    exact List.mem_append_right _ (List.mem_singleton_self c)

/-- Filtering a row by a predicate on the key filters its column list. -/
theorem rowCols_keyfilter (r : Row) (q : String → Bool) :
    rowCols (r.filter (fun p => q p.1)) = (rowCols r).filter q := by
  induction r with
  | nil => rfl
  | cons p l ih =>
    simp only [rowCols] at ih ⊢
    rw [List.filter_cons, List.map_cons, List.filter_cons]
    by_cases h : q p.1 = true
    · rw [if_pos h, if_pos h, List.map_cons, ih]
    · rw [if_neg h, if_neg h, ih]

/-- The columns of a row after `dropCol`. -/
theorem rowCols_dropCol (r : Row) (c : String) :
    rowCols (dropCol r c) = (rowCols r).filter (fun x => decide (x ≠ c)) :=
  rowCols_keyfilter r (fun x => decide (x ≠ c))

/-- The columns of a row after `dropKeys`. -/
theorem rowCols_dropKeys (r : Row) (keys : List String) :
    rowCols (dropKeys r keys) = (rowCols r).filter (fun x => decide (x ∉ keys)) :=
  rowCols_keyfilter r (fun x => decide (x ∉ keys))

/-- Lookup after `dropCol`: the dropped column is gone, others unchanged. -/
theorem getCol_dropCol (r : Row) (c : String) (k : String) :
    getCol (dropCol r c) k = if k = c then none else getCol r k := by
  induction r with
  | nil => by_cases hk : k = c <;> simp [dropCol, getCol, hk]
  | cons p l ih =>
    rw [dropCol] at ih ⊢
    rw [List.filter_cons]
    by_cases hp : p.1 = c
    · rw [if_neg (by simp [hp]), ih]
      by_cases hk : k = c
      · rw [if_pos hk, if_pos hk]
      · rw [if_neg hk, if_neg hk, getCol_cons,
          if_neg (by rw [hp]; exact fun hc => hk hc.symm)]
    · rw [if_pos (by simp [hp]), getCol_cons]
      by_cases hpk : p.1 = k
      · have hk : ¬ k = c := by
          rw [← hpk]
          exact hp
        rw [if_pos hpk, if_neg hk, getCol_cons, if_pos hpk]
      · rw [if_neg hpk, ih]
        by_cases hk : k = c
        · rw [if_pos hk, if_pos hk]
        · rw [if_neg hk, if_neg hk, getCol_cons, if_neg hpk]

/-- `merge_on_date_year` is its staged decomposition. -/
theorem merge_on_date_year_eq (df_date df_year : List Row) (onCols : List String)
    (date_col year_col : String) :
    merge_on_date_year df_date df_year onCols date_col year_col
      = (mdyDateMut date_col df_date, mdyYearMut year_col df_year,
        (mdyMergedPre df_date df_year onCols date_col year_col).map
          (fun r => dropCol r "year_temp")) := rfl

/-- Lookup into a projected row: exactly the selected columns survive. -/
theorem getCol_projectRow (r : Row) (cs : List String) (k : String) :
    getCol (projectRow r cs) k = if k ∈ cs then getCol r k else none := by
  induction cs with
  | nil => simp [projectRow, getCol]
  | cons c cs ih =>
    rw [projectRow, List.filterMap_cons]
    rw [projectRow] at ih
    cases hg : getCol r c with
    | none =>
      simp only [Option.map_none']
      rw [ih]
      by_cases hk : k = c
      · subst hk
        rw [if_pos (List.mem_cons_self _ _)]
        by_cases hm : k ∈ cs
        · rw [if_pos hm]
        · rw [if_neg hm, hg]
      · by_cases hm : k ∈ cs
        · rw [if_pos hm, if_pos (List.mem_cons_of_mem _ hm)]
        · rw [if_neg hm, if_neg (by simp [hk, hm])]
    | some v =>
      simp only [Option.map_some']
      rw [getCol_cons]
      by_cases hk : k = c
      · subst hk
        rw [if_pos rfl, if_pos (List.mem_cons_self _ _), hg]
      · rw [if_neg (fun hc => hk hc.symm), ih]
        by_cases hm : k ∈ cs
        · rw [if_pos hm, if_pos (List.mem_cons_of_mem _ hm)]
        · rw [if_neg hm, if_neg (by simp [hk, hm])]

/-- A projection onto columns that all exist has exactly those columns. -/
theorem rowCols_projectRow (r : Row) (cs : List String)
    (h : ∀ c ∈ cs, c ∈ rowCols r) : rowCols (projectRow r cs) = cs := by
  induction cs with
  | nil => rfl
  | cons c cs ih =>
    have hc := h c (List.mem_cons_self _ _)
    have htail := ih (fun x hx => h x (List.mem_cons_of_mem _ hx))
    cases hg : getCol r c with
    | none => exact absurd hc ((getCol_eq_none r c).mp hg)
    | some v =>
      rw [projectRow, List.filterMap_cons, hg]
      simp only [Option.map_some']
      rw [projectRow] at htail
      rw [rowCols, List.map_cons]
      rw [rowCols] at htail
      rw [htail]

/-- The columns of a row concatenation. -/
theorem rowCols_append (a b : Row) : rowCols (a ++ b) = rowCols a ++ rowCols b :=
  List.map_append _ a b

/-- Summed lengths of an everywhere-empty list family vanish. -/
theorem sum_map_len_nil {α β : Type} (l : List α) (f : α → List β)
    (h : ∀ x, f x = []) : (List.map (List.length ∘ f) l).sum = 0 := by
  induction l with
  | nil => rfl
  | cons a t ih => simp [h, ih]

/-- Claim C7: on inputs satisfying the preconditions (uniform duplicate-free
schemas, date/year columns present, merge keys present on both sides and
distinct from the derived key, and the annual side passing the `AS-JAN`
frequency assertion), the merged output of `merge_on_date_year` has exactly
one row per (finer row, matching annual row) pair, and each output row's
columns are the finer side's columns plus the annual side's unshared
columns — without `year_temp` and without the annual side's date column. -/
theorem claim_C7_merge (df_date df_year : List Row) (onCols : List String)
    (date_col year_col : String) (Dcols Ycols : List String)
    (hD : ∀ r ∈ df_date, rowCols r = Dcols)
    (hY : ∀ r ∈ df_year, rowCols r = Ycols)
    (hdc : date_col ∈ Dcols) (hyc : year_col ∈ Ycols)
    (hytD : "year_temp" ∉ Dcols) (hytY : "year_temp" ∉ Ycols)
    (honD : ∀ k ∈ onCols, k ∈ Dcols) (honY : ∀ k ∈ onCols, k ∈ Ycols)
    (hony : year_col ∉ onCols)
    (hjan : asJanB df_year year_col = true) :
    (merge_on_date_year df_date df_year onCols date_col year_col).2.2.length
      = (df_date.flatMap (fun d =>
          df_year.filter (fun y => specMatchB d y onCols date_col year_col))).length ∧
    ∀ r ∈ (merge_on_date_year df_date df_year onCols date_col year_col).2.2,
      rowCols r = Dcols ++ Ycols.filter
        (fun c => decide (c ∉ Dcols) && decide (c ≠ year_col)) ∧
      "year_temp" ∉ rowCols r ∧
      (year_col ∉ Dcols → year_col ∉ rowCols r) ∧
      date_col ∈ rowCols r := by
  simp only [merge_on_date_year_eq]
  cases df_year with
  | nil =>
    constructor
    · simp only [mdyMergedPre, mdyYear2, mdyYearMut, List.map_nil,
        List.filter_nil, List.length_map, List.length_flatMap]
      rw [sum_map_len_nil _ _ (fun x => rfl), sum_map_len_nil _ _ (fun x => rfl)]
    · intro r hr
      simp [mdyMergedPre, mdyYear2, mdyYearMut] at hr
  | cons y0 ys =>
  cases df_date with
  | nil =>
    constructor
    · simp [mdyMergedPre, mdyDateMut]
    · intro r hr
      simp [mdyMergedPre, mdyDateMut] at hr
  | cons d0 ds =>
  have hytne : ("year_temp" : String) ≠ year_col := fun h => hytY (by rw [h]; exact hyc)
  have hanyD : ∀ r : Row, rowCols r = Dcols →
      ¬ (r.any (fun p => decide (p.1 = "year_temp"))) = true :=
    fun r hr h => hytD (hr ▸ (any_key_mem r "year_temp").mp h)
  have hanyY : ∀ r : Row, rowCols r = Ycols →
      ¬ (r.any (fun p => decide (p.1 = "year_temp"))) = true :=
    fun r hr h => hytY (hr ▸ (any_key_mem r "year_temp").mp h)
  have hcolsRowD : ∀ r ∈ d0 :: ds,
      rowCols (setCol r "year_temp" (Val.num (yearTempVal r date_col)))
        = Dcols ++ ["year_temp"] := by
    intro r hr
    rw [rowCols_setCol, if_neg (hanyD r (hD r hr)), hD r hr]
  have hcolsRowY2 : ∀ r ∈ y0 :: ys,
      rowCols (dropCol (setCol r "year_temp" (Val.num (yearTempVal r year_col))) year_col)
        = Ycols.filter (fun c => decide (c ≠ year_col)) ++ ["year_temp"] := by
    intro r hr
    rw [rowCols_dropCol, rowCols_setCol, if_neg (hanyY r (hY r hr)), hY r hr,
      List.filter_append]
    congr 1
    simp [hytne]
  have hcolsD : colsOf (mdyDateMut date_col (d0 :: ds)) = Dcols ++ ["year_temp"] := by
    rw [mdyDateMut, List.map_cons]
    exact hcolsRowD d0 (List.mem_cons_self _ _)
  have hcolsY2 : colsOf (mdyYear2 year_col (y0 :: ys))
      = Ycols.filter (fun c => decide (c ≠ year_col)) ++ ["year_temp"] := by
    rw [mdyYear2, mdyYearMut, List.map_cons, List.map_cons]
    exact hcolsRowY2 y0 (List.mem_cons_self _ _)
  have hUnsh : mdyUnshared (d0 :: ds) (y0 :: ys) date_col year_col
      = Ycols.filter (fun c => decide (c ∉ Dcols) && decide (c ≠ year_col)) := by
    rw [mdyUnshared, hcolsY2, hcolsD, List.filter_append, List.filter_filter]
    have hB : (["year_temp"] : List String).filter
        (fun c => decide (c ∉ Dcols ++ ["year_temp"])) = [] := by
      simp
    rw [hB, List.append_nil]
    apply List.filter_congr
    intro c hc
    have hcne : c ≠ "year_temp" := fun h => hytY (h ▸ hc)
    congr 1
    apply decide_eq_decide.mpr
    simp [hcne]
  have hUnshMem : ∀ c, c ∈ Ycols.filter
      (fun c => decide (c ∉ Dcols) && decide (c ≠ year_col)) ↔
      (c ∈ Ycols ∧ c ∉ Dcols ∧ c ≠ year_col) := by
    intro c
    rw [List.mem_filter]
    simp
  have hytcols : ("year_temp" : String)
      ∈ mdyColsToUse (d0 :: ds) (y0 :: ys) onCols date_col year_col := by
    rw [mdyColsToUse]
    exact List.mem_append_right _
      (List.mem_append_right _ (List.mem_singleton_self _))
  have hsubY2 : ∀ c ∈ mdyColsToUse (d0 :: ds) (y0 :: ys) onCols date_col year_col,
      c ∈ Ycols.filter (fun c => decide (c ≠ year_col)) ++ ["year_temp"] := by
    intro c hc
    rw [mdyColsToUse, hUnsh, List.mem_append] at hc
    rcases hc with hc | hc
    · obtain ⟨hcY, -, hcy⟩ := (hUnshMem c).mp hc
      exact List.mem_append_left _ (List.mem_filter.mpr ⟨hcY, by simp [hcy]⟩)
    · rw [List.mem_append] at hc
      rcases hc with hc | hc
      · have hcy : c ≠ year_col := fun h => hony (h ▸ hc)
        exact List.mem_append_left _
          (List.mem_filter.mpr ⟨honY c hc, by simp [hcy]⟩)
      · rw [List.mem_singleton] at hc
        subst hc
        exact List.mem_append_right _ (List.mem_singleton_self _)
  constructor
  · -- one output row per matching pair
    rw [List.length_map, mdyMergedPre, List.length_flatMap, List.length_flatMap,
      mdyDateMut, List.map_map]
    apply congrArg List.sum
    apply List.map_congr_left
    intro d hd
    simp only [Function.comp_apply]
    rw [List.length_map, List.filter_map, List.length_map, mdyYear2, mdyYearMut,
      List.map_map, List.filter_map, List.length_map]
    congr 1
    apply List.filter_congr
    intro y hy
    simp only [Function.comp_apply]
    rw [specMatchB, List.all_append]
    congr 1
    · apply all_eq_of_forall_eq
      intro k hk
      have hkD := honD k hk
      have hkY := honY k hk
      have hkyt : k ≠ "year_temp" := fun h => hytD (h ▸ hkD)
      have hkyc : k ≠ year_col := fun h => hony (h ▸ hk)
      have hkcols : k ∈ mdyColsToUse (d0 :: ds) (y0 :: ys) onCols date_col year_col := by
        rw [mdyColsToUse]
        exact List.mem_append_right _ (List.mem_append_left _ hk)
      apply decide_eq_decide.mpr
      rw [getCol_setCol_ne _ _ _ _ hkyt, getCol_projectRow, if_pos hkcols,
        getCol_dropCol, if_neg hkyc, getCol_setCol_ne _ _ _ _ hkyt]
    · rw [List.all_cons, List.all_nil, Bool.and_true]
      apply decide_eq_decide.mpr
      rw [getCol_setCol_self, getCol_projectRow, if_pos hytcols,
        getCol_dropCol, if_neg hytne, getCol_setCol_self]
      simp
  · -- column structure of each output row
    intro r hr
    rw [List.mem_map] at hr
    obtain ⟨m, hm, rfl⟩ := hr
    rw [mdyMergedPre, List.mem_flatMap] at hm
    obtain ⟨d', hd', hmm2⟩ := hm
    rw [List.mem_map] at hmm2
    obtain ⟨y', hy', rfl⟩ := hmm2
    have hy'2 := List.mem_of_mem_filter hy'
    rw [List.mem_map] at hy'2
    obtain ⟨y2v, hy2v, rfl⟩ := hy'2
    rw [mdyYear2, List.mem_map] at hy2v
    obtain ⟨ym, hym, rfl⟩ := hy2v
    rw [mdyYearMut, List.mem_map] at hym
    obtain ⟨y, hyy, rfl⟩ := hym
    rw [mdyDateMut, List.mem_map] at hd'
    obtain ⟨d, hdd, rfl⟩ := hd'
    have hprojcols : rowCols (projectRow
        (dropCol (setCol y "year_temp" (Val.num (yearTempVal y year_col))) year_col)
        (mdyColsToUse (d0 :: ds) (y0 :: ys) onCols date_col year_col))
        = mdyColsToUse (d0 :: ds) (y0 :: ys) onCols date_col year_col := by
      apply rowCols_projectRow
      intro c hc
      rw [hcolsRowY2 y hyy]
      exact hsubY2 c hc
    have hfilterU : (mdyColsToUse (d0 :: ds) (y0 :: ys) onCols date_col year_col).filter
        (fun c => decide (c ∉ onCols ++ ["year_temp"]))
        = Ycols.filter (fun c => decide (c ∉ Dcols) && decide (c ≠ year_col)) := by
      rw [mdyColsToUse, hUnsh, List.filter_append]
      have h2 : (onCols ++ ["year_temp"]).filter
          (fun c => decide (c ∉ onCols ++ ["year_temp"])) = [] := by
        rw [List.filter_eq_nil_iff]
        intro a ha
        simp [ha]
      rw [h2, List.append_nil]
      apply List.filter_eq_self.mpr
      intro c hc
      obtain ⟨hcY, hcD, hcyc⟩ := (hUnshMem c).mp hc
      have h1 : c ∉ onCols := fun h => hcD (honD c h)
      have h3 : c ≠ "year_temp" := fun h => hytY (h ▸ hcY)
      simp [List.mem_append, h1, h3]
    have hcolsr : rowCols (dropCol
        (setCol d "year_temp" (Val.num (yearTempVal d date_col)) ++
          dropKeys (projectRow
            (dropCol (setCol y "year_temp" (Val.num (yearTempVal y year_col))) year_col)
            (mdyColsToUse (d0 :: ds) (y0 :: ys) onCols date_col year_col))
          (onCols ++ ["year_temp"])) "year_temp")
        = Dcols ++ Ycols.filter
          (fun c => decide (c ∉ Dcols) && decide (c ≠ year_col)) := by
      rw [rowCols_dropCol, rowCols_append, rowCols_setCol,
        if_neg (hanyD d (hD d hdd)), hD d hdd, rowCols_dropKeys, hprojcols,
        hfilterU, List.filter_append, List.filter_append]
      have hA : Dcols.filter (fun x => decide (x ≠ "year_temp")) = Dcols := by
        apply List.filter_eq_self.mpr
        intro c hc
        have : c ≠ "year_temp" := fun h => hytD (h ▸ hc)
        simp [this]
      have hB : (["year_temp"] : List String).filter
          (fun x => decide (x ≠ "year_temp")) = [] := by
        simp
      have hC : (Ycols.filter (fun c => decide (c ∉ Dcols) && decide (c ≠ year_col))).filter
          (fun x => decide (x ≠ "year_temp"))
          = Ycols.filter (fun c => decide (c ∉ Dcols) && decide (c ≠ year_col)) := by
        apply List.filter_eq_self.mpr
        intro c hc
        have hcY := ((hUnshMem c).mp hc).1
        have : c ≠ "year_temp" := fun h => hytY (h ▸ hcY)
        simp [this]
      rw [hA, hB, hC, List.append_nil]
    refine ⟨hcolsr, ?_, ?_, ?_⟩
    · rw [hcolsr, List.mem_append]
      rintro (h | h)
      · exact hytD h
      · exact hytY ((hUnshMem _).mp h).1
    · intro hycD
      rw [hcolsr, List.mem_append]
      rintro (h | h)
      · exact hycD h
      · exact ((hUnshMem _).mp h).2.2 rfl
    · rw [hcolsr]
      exact List.mem_append_left _ hdc

/-- Witness for C7: one June-2015 observation joined against three annual
January-1st rows, checked through the theorem. -/
theorem claim_C7_witness :
    (merge_on_date_year dfDateW dfYearW [] "report_date" "report_date").2.2.length
      = (dfDateW.flatMap (fun d =>
          dfYearW.filter (fun y => specMatchB d y [] "report_date" "report_date"))).length ∧
    ∀ r ∈ (merge_on_date_year dfDateW dfYearW [] "report_date" "report_date").2.2,
      rowCols r = ["report_date", "x"] ++ (["report_date", "cap"] : List String).filter
        (fun c => decide (c ∉ (["report_date", "x"] : List String)) &&
          decide (c ≠ "report_date")) ∧
      "year_temp" ∉ rowCols r ∧
      ("report_date" ∉ (["report_date", "x"] : List String) →
        "report_date" ∉ rowCols r) ∧
      "report_date" ∈ rowCols r :=
  claim_C7_merge dfDateW dfYearW [] "report_date" "report_date"
    ["report_date", "x"] ["report_date", "cap"]
    (by decide) (by decide) (by decide) (by decide) (by decide) (by decide)
    (by decide) (by decide) (by decide) (by decide)

/-- Claim C10: both functions mutate their caller's arguments in place.
`merge_on_date_year` writes `year_temp` into both input frames (the first
two components of the state-passing translation are the callers' frames
after the call); `yearly_sum_eia` writes `report_year` into its input.
An input that lacked the written column beforehand is not left unchanged. -/
theorem claim_C10_inplace :
    (∀ (df_date df_year : List Row) (onCols : List String) (dc yc : String),
      ((merge_on_date_year df_date df_year onCols dc yc).1
        = df_date.map (fun r => setCol r "year_temp" (Val.num (yearTempVal r dc)))) ∧
      ((merge_on_date_year df_date df_year onCols dc yc).2.1
        = df_year.map (fun r => setCol r "year_temp" (Val.num (yearTempVal r yc)))) ∧
      (∀ r ∈ (merge_on_date_year df_date df_year onCols dc yc).1,
        "year_temp" ∈ rowCols r) ∧
      (∀ r ∈ (merge_on_date_year df_date df_year onCols dc yc).2.1,
        "year_temp" ∈ rowCols r) ∧
      ((∀ r ∈ df_date, "year_temp" ∉ rowCols r) → df_date ≠ [] →
        (merge_on_date_year df_date df_year onCols dc yc).1 ≠ df_date) ∧
      ((∀ r ∈ df_year, "year_temp" ∉ rowCols r) → df_year ≠ [] →
        (merge_on_date_year df_date df_year onCols dc yc).2.1 ≠ df_year)) ∧
    (∀ (df : List GenRow) (sum_by : GenRow → ℚ) (columns : List GCol),
      ((yearly_sum_eia df sum_by columns).1
        = df.map (fun r => { r with report_year := some r.report_date.year })) ∧
      (∀ r ∈ (yearly_sum_eia df sum_by columns).1,
        r.report_year = some r.report_date.year) ∧
      ((∀ r ∈ df, r.report_year = none) → df ≠ [] →
        (yearly_sum_eia df sum_by columns).1 ≠ df)) := by
  constructor
  · intro df_date df_year onCols dc yc
    refine ⟨rfl, rfl, ?_, ?_, ?_, ?_⟩
    · intro r hr
      rw [merge_on_date_year_eq, mdyDateMut, List.mem_map] at hr
      obtain ⟨s, -, rfl⟩ := hr
      exact mem_rowCols_setCol s _ _
    · intro r hr
      rw [merge_on_date_year_eq, mdyYearMut, List.mem_map] at hr
      obtain ⟨s, -, rfl⟩ := hr
      exact mem_rowCols_setCol s _ _
    · intro hno hne heq
      obtain ⟨r0, rest, rfl⟩ := List.exists_cons_of_ne_nil hne
      rw [merge_on_date_year_eq, mdyDateMut, List.map_cons] at heq
      have hhead := (List.cons.injEq _ _ _ _).mp heq
      have := congrArg rowCols hhead.1
      exact hno r0 (List.mem_cons_self _ _) (this ▸ mem_rowCols_setCol r0 _ _)
    · intro hno hne heq
      obtain ⟨r0, rest, rfl⟩ := List.exists_cons_of_ne_nil hne
      rw [merge_on_date_year_eq, mdyYearMut, List.map_cons] at heq
      have hhead := (List.cons.injEq _ _ _ _).mp heq
      have := congrArg rowCols hhead.1
      exact hno r0 (List.mem_cons_self _ _) (this ▸ mem_rowCols_setCol r0 _ _)
  · intro df sum_by columns
    refine ⟨rfl, ?_, ?_⟩
    · intro r hr
      rw [yearly_sum_eia] at hr
      simp only [List.mem_map] at hr
      obtain ⟨s, -, rfl⟩ := hr
      rfl
    · intro hnone hne heq
      obtain ⟨r0, rest, rfl⟩ := List.exists_cons_of_ne_nil hne
      rw [yearly_sum_eia] at heq
      simp only [List.map_cons] at heq
      have hhead := (List.cons.injEq _ _ _ _).mp heq
      have h1 := congrArg GenRow.report_year hhead.1
      rw [hnone r0 (List.mem_cons_self _ _)] at h1
      cases h1

/-- Witness for C10: on concrete frames lacking the written columns, both
callers' arguments are provably changed by the call. -/
theorem claim_C10_witness :
    (merge_on_date_year dfDateW dfYearW [] "report_date" "report_date").1
      ≠ dfDateW ∧
    (merge_on_date_year dfDateW dfYearW [] "report_date" "report_date").2.1
      ≠ dfYearW ∧
    (yearly_sum_eia genDf8 (fun r => r.net_generation_mwh)
      [GCol.plant_id_eia, GCol.generator_id]).1 ≠ genDf8 := by
  refine ⟨?_, ?_, ?_⟩
  · exact (claim_C10_inplace.1 dfDateW dfYearW [] "report_date"
      "report_date").2.2.2.2.1 (by decide) (by decide)
  · exact (claim_C10_inplace.1 dfDateW dfYearW [] "report_date"
      "report_date").2.2.2.2.2 (by decide) (by decide)
  · exact (claim_C10_inplace.2 genDf8 (fun r => r.net_generation_mwh)
      [GCol.plant_id_eia, GCol.generator_id]).2.2 (by decide) (by decide)

end PudlAnalysis
